import Mathlib

/-!
Verification of the `solc-transpiler` compiler wrapper
(`src/packages/solc-transpiler/src/compiler.ts`) of the optimism monorepo.

The TypeScript code manipulates dynamically-typed, JSON-shaped values
(parsed solc configuration and output).  We shallow-embed those values as
the inductive type `JsVal` and give executable Lean translations of every
function of `compiler.ts`, mirroring JavaScript semantics where the code
relies on them (truthiness, the `in` operator on arrays checking indices
rather than elements, property access throwing on `null`/`undefined`,
`Object.entries` yielding key/value pairs in insertion order, sloppy-mode
silent no-op assignment to properties of primitives).

External collaborators that are not part of this repository (solc itself,
the JavaScript runtime's `JSON.parse`, the `rollup-dev-tools` transpiler
and the `process.env` environment) are parameters, collected in
`ExternalEnv`.  Helper functions of `@eth-optimism/core-utils` that are
part of the repository but whose source is not included here
(`remove0x`, `hexStrToBuf`, `bufToHexString`, `isValidHexAddress`) are
modelled from the spec; their doc comments say so.

Throwing JavaScript code is embedded in `Except String`; the error
strings are informal descriptions of the thrown `TypeError`s.
-/

/-- A JavaScript/JSON value, as manipulated by `compiler.ts`.  Objects are
association lists in insertion order (JavaScript objects preserve
insertion order for the string keys used here; the integer-key reordering
of `Object.entries` is not exercised by filenames/contract names and is
not modelled).  `undef` is JavaScript `undefined`. -/
inductive JsVal where
  | null
  | undef
  | bool (b : Bool)
  | num (n : Int)
  | str (s : String)
  | arr (elems : List JsVal)
  | obj (fields : List (String × JsVal))

/-- Lookup of the first binding of a key in an object field list. -/
def objGet : List (String × JsVal) → String → Option JsVal
  | [], _ => none
  | (k', v) :: rest, k => if k' = k then some v else objGet rest k

/-- Replace the first binding of a key, or append a new binding. -/
def objSet : List (String × JsVal) → String → JsVal → List (String × JsVal)
  | [], k, v => [(k, v)]
  | (k', v') :: rest, k, v =>
      if k' = k then (k', v) :: rest else (k', v') :: objSet rest k v

/-- Remove the binding of a key (all of them — an object produced by
`JSON.parse` has at most one binding per key). -/
def objDel : List (String × JsVal) → String → List (String × JsVal)
  | [], _ => []
  | (k', v') :: rest, k =>
      if k' = k then objDel rest k else (k', v') :: objDel rest k

/-- Decimal digit value of a character. -/
def digitVal? (c : Char) : Option Nat :=
  if '0' ≤ c ∧ c ≤ '9' then some (c.toNat - '0'.toNat) else none

/-- Value of a digit string, most significant first. -/
def decValueAux : List Char → Nat → Option Nat
  | [], acc => some acc
  | c :: rest, acc =>
      match digitVal? c with
      | some d => decValueAux rest (acc * 10 + d)
      | none => none

/-- A canonical array index (JavaScript array-index semantics): a
nonempty all-digit string without a superfluous leading zero, i.e.
exactly the decimal rendering of the returned natural number. -/
def toIndex? (k : String) : Option Nat :=
  match k.data with
  | [] => none
  | c :: rest =>
      if c = '0' ∧ rest ≠ [] then none
      else decValueAux (c :: rest) 0

/-- Property read, total observation form: yields `undefined` where
JavaScript would (missing key, primitive base).  Reads on `null` and
`undefined` bases — which throw in JavaScript — also yield `undef` here;
the throwing read is `jsGetE` below. -/
def jsGet : JsVal → String → JsVal
  | .obj fs, k => (objGet fs k).getD .undef
  | .arr xs, k =>
      if k = "length" then .num xs.length
      else match toIndex? k with
        | some i => (xs.get? i).getD .undef
        | none => .undef
  | .str s, k =>
      if k = "length" then .num s.length
      else match toIndex? k with
        | some i =>
            match s.data.get? i with
            | some c => .str (String.singleton c)
            | none => .undef
        | none => .undef
  | _, _ => (.undef)

/-- Property read with JavaScript semantics: throws a `TypeError` on a
`null` or `undefined` base. -/
def jsGetE : JsVal → String → Except String JsVal
  | .null, k => .error ("TypeError: cannot read property " ++ k ++ " of null")
  | .undef, k => .error ("TypeError: cannot read property " ++ k ++ " of undefined")
  | v, k => .ok (jsGet v k)

/-- Chain of total property reads (observation of a path). -/
def jsGetChain : JsVal → List String → JsVal
  | v, [] => v
  | v, k :: ks => jsGetChain (jsGet v k) ks

/-- Chain of throwing property reads, as in a JavaScript member chain. -/
def jsGetPathE : JsVal → List String → Except String JsVal
  | v, [] => .ok v
  | v, k :: ks => do jsGetPathE (← jsGetE v k) ks

/-- JavaScript truthiness (`!!v`).  `NaN` is not modelled (never produced
by the code under verification). -/
def truthy : JsVal → Bool
  | .null => false
  | .undef => false
  | .bool b => b
  | .num n => n != 0
  | .str s => s != ""
  | .arr _ => true
  | .obj _ => true

/-- JavaScript `a || b`. -/
def jsOr (a b : JsVal) : JsVal := if truthy a then a else b

/-- JavaScript `typeof`. -/
def jsTypeof : JsVal → String
  | .undef => "undefined"
  | .null => "object"
  | .bool _ => "boolean"
  | .num _ => "number"
  | .str _ => "string"
  | .arr _ => "object"
  | .obj _ => "object"

/-- The JavaScript `in` operator.  On objects it tests key membership; on
arrays it tests array *indices* (and `length`), not elements — the source
of the `evm.legacyAssembly` selection bug.  Inherited prototype
properties are not modelled (none of the strings tested by the code are
prototype members).  Throws on a non-object right operand. -/
def jsInE (k : String) : JsVal → Except String Bool
  | .obj fs => .ok (objGet fs k).isSome
  | .arr xs =>
      .ok (k = "length" || (match toIndex? k with
        | some i => decide (i < xs.length)
        | none => false))
  | _ => .error "TypeError: cannot use in operator on a non-object"

/-- `Object.entries`: insertion-order pairs for objects, index/value
pairs for arrays and strings, empty for other primitives, throws on
`null`/`undefined`. -/
def jsEntriesE : JsVal → Except String (List (String × JsVal))
  | .obj fs => .ok fs
  | .arr xs => .ok (xs.enum.map (fun p => (toString p.1, p.2)))
  | .str s => .ok (s.data.enum.map (fun p => (toString p.1, .str (String.singleton p.2))))
  | .null => .error "TypeError: cannot convert null to object"
  | .undef => .error "TypeError: cannot convert undefined to object"
  | _ => .ok []

/-- Property write on a single value: objects update the key, arrays
update a canonical in-bounds index, all other bases are silent no-ops
(sloppy-mode JavaScript); `null`/`undefined` bases are rejected by the
caller (`jsSetPathE`). -/
def jsSetProp : JsVal → String → JsVal → JsVal
  | .obj fs, k, v => .obj (objSet fs k v)
  | .arr xs, k, v =>
      (match toIndex? k with
        | some i => .arr (xs.set i v)
        | none => .arr xs)
  | other, _, _ => other

/-- A JavaScript assignment `base.k1.k2...kn = v`: navigates with
throwing reads and performs the final write with `jsSetProp`. -/
def jsSetPathE : JsVal → List String → JsVal → Except String JsVal
  | base, [], _ => .ok base
  | base, [k], v =>
      match base with
      | .null => .error ("TypeError: cannot set property " ++ k ++ " of null")
      | .undef => .error ("TypeError: cannot set property " ++ k ++ " of undefined")
      | b => .ok (jsSetProp b k v)
  | base, k :: k' :: rest, v => do
      let child ← jsGetE base k
      let child' ← jsSetPathE child (k' :: rest) v
      .ok (jsSetProp base k child')

/-- `delete target.k` on a navigated value: removes the key from an
object, is a silent no-op on other non-null bases (matching sloppy-mode
`delete` of a non-own property), throws on `null`/`undefined`. -/
def jsDelPropE : JsVal → String → Except String JsVal
  | .null, k => .error ("TypeError: cannot delete property " ++ k ++ " of null")
  | .undef, k => .error ("TypeError: cannot delete property " ++ k ++ " of undefined")
  | .obj fs, k => .ok (.obj (objDel fs k))
  | v, _ => .ok v

/-- A JavaScript statement `delete base.p1...pn.k`: reads the target via
the throwing member chain, deletes the key, and writes the modified
target back along the same path (the functional rendering of the in-place
mutation). -/
def jsDeleteAtE (base : JsVal) (path : List String) (k : String) : Except String JsVal := do
  let t ← jsGetPathE base path
  let t' ← jsDelPropE t k
  jsSetPathE base path t'

/-- Elements of an array value; empty for non-arrays. -/
def jsArrElems : JsVal → List JsVal
  | .arr xs => xs
  | _ => []

/-- Minimal JSON string escaping, as done by `JSON.stringify` for the
characters that can occur in the values handled here (quote, backslash
and the common control characters; other control characters are not
produced by the code under verification). -/
def escapeChar (c : Char) : String :=
  if c = '"' then "\\\""
  else if c = '\\' then "\\\\"
  else if c = '\n' then "\\n"
  else if c = '\t' then "\\t"
  else if c = '\r' then "\\r"
  else String.singleton c

/-- Escape a whole string for JSON output. -/
def escapeJson (s : String) : String := String.join (s.data.map escapeChar)

/-- Quote and escape a string for JSON output. -/
def jsonQuote (s : String) : String := "\"" ++ escapeJson s ++ "\""

mutual
/-- `JSON.stringify` over `JsVal`: no whitespace, object fields with
`undefined` values are dropped, `undefined` array elements render as
`null` (JavaScript `JSON.stringify` behaviour). -/
def stringifyVal : JsVal → String
  | .null => "null"
  | .undef => "null"
  | .bool b => cond b "true" "false"
  | .num n => toString n
  | .str s => jsonQuote s
  | .arr xs => "[" ++ String.intercalate "," (stringifyList xs) ++ "]"
  | .obj fs => "\x7b" ++ String.intercalate "," (stringifyFields fs) ++ "\x7d"

/-- Stringify the elements of an array. -/
def stringifyList : List JsVal → List String
  | [] => []
  | x :: xs => stringifyVal x :: stringifyList xs

/-- Stringify object fields, dropping `undefined` values as
`JSON.stringify` does. -/
def stringifyFields : List (String × JsVal) → List String
  | [] => []
  | (_, .undef) :: fs => stringifyFields fs
  | (k, v) :: fs => (jsonQuote k ++ ":" ++ stringifyVal v) :: stringifyFields fs
end

/-! ## Modelled `@eth-optimism/core-utils` helpers

The `core-utils` package belongs to this repository but its source for
these helpers is not included under `src/`; they are modelled from the
spec and from how `compiler.ts` uses them. -/

/-- JavaScript `s.startsWith(p)`, over character lists. -/
def strStartsWith (s p : String) : Bool := p.data.isPrefixOf s.data

/-- Modelled from the spec: `remove0x` of `@eth-optimism/core-utils`
(source not under `src/`): strips a leading `0x` prefix from a hex
string, returning other strings unchanged ("hex, no leading prefix"). -/
def remove0x (s : String) : String :=
  if strStartsWith s "0x" then String.mk (s.data.drop 2) else s

/-- `remove0x` applied to a JavaScript value: throws on non-strings
(`startsWith` of `undefined` etc.). -/
def remove0xJsE : JsVal → Except String String
  | .str s => .ok (remove0x s)
  | _ => .error "TypeError: remove0x called on a non-string"

/-- Numeric value of one hex digit. -/
def hexDigitVal? (c : Char) : Option Nat :=
  if '0' ≤ c ∧ c ≤ '9' then some (c.toNat - '0'.toNat)
  else if 'a' ≤ c ∧ c ≤ 'f' then some (c.toNat - 'a'.toNat + 10)
  else if 'A' ≤ c ∧ c ≤ 'F' then some (c.toNat - 'A'.toNat + 10)
  else none

/-- Decode pairs of hex digits into bytes, stopping at the first
non-hex pair or odd trailing digit (`Buffer.from(s, "hex")`). -/
def hexPairsToBytes : List Char → List Nat
  | c1 :: c2 :: rest =>
      (match hexDigitVal? c1, hexDigitVal? c2 with
        | some h, some l => (16 * h + l) :: hexPairsToBytes rest
        | _, _ => [])
  | _ => []

/-- Modelled from the spec: `hexStrToBuf` of `@eth-optimism/core-utils`
(source not under `src/`): `Buffer.from(remove0x(s), "hex")`, i.e. the
byte list decoded from the un-prefixed hex string. -/
def hexStrToBufStr (s : String) : List Nat := hexPairsToBytes (remove0x s).data

/-- `hexStrToBuf` applied to a JavaScript value: throws on non-strings
(the internal `remove0x`/`startsWith` throws). -/
def hexStrToBufE : JsVal → Except String (List Nat)
  | .str s => .ok (hexStrToBufStr s)
  | _ => .error "TypeError: hexStrToBuf called on a non-string"

/-- Lowercase hex digit of a value below 16. -/
def hexDigitChar (n : Nat) : Char := ("0123456789abcdef".data.getD n '0')

/-- Two lowercase hex digits of one byte. -/
def byteToHex (b : Nat) : String :=
  String.mk [hexDigitChar (b % 256 / 16), hexDigitChar (b % 16)]

/-- Lowercase hex rendering of a byte list, no prefix. -/
def hexEncode : List Nat → String
  | [] => ""
  | b :: rest => byteToHex b ++ hexEncode rest

/-- Modelled from the spec: `bufToHexString` of
`@eth-optimism/core-utils` (source not under `src/`): `0x` followed by
the lowercase hex rendering of the buffer. -/
def bufToHexString (bytes : List Nat) : String := "0x" ++ hexEncode bytes

/-- Hex-digit test (either case). -/
def isHexChar (c : Char) : Bool := (hexDigitVal? c).isSome

/-- Modelled from the spec: `isValidHexAddress` of
`@eth-optimism/core-utils` (source not under `src/`): a valid Ethereum
address is a `0x`-prefixed hex string of exactly 40 hex digits, case
insensitive; non-strings are not valid addresses. -/
def isValidHexAddress : JsVal → Bool
  | .str s =>
      strStartsWith s "0x" && decide ((s.data.drop 2).length = 40)
        && (s.data.drop 2).all isHexChar
  | _ => false

/-! ## The rollup-dev-tools transpiler interface

`TranspilerImpl`, `OpcodeWhitelistImpl` and `OpcodeReplacerImpl` come
from `@eth-optimism/rollup-dev-tools`, an external collaborator of
`compiler.ts`; the compiler only consumes the interface below, so the
transpiler is a parameter of the embedding. -/

/-- A transpilation error: the original-stream byte index of the
offending instruction and a message (spec §3). -/
structure TranspilationError where
  index : Nat
  message : String

/-- The tagged union result of a transpilation: exactly one variant
(spec §3). -/
inductive TranspilationResult where
  | succeeded (bytecode : List Nat)
  | errored (errors : List TranspilationError)

/-- The transpiler interface consumed by `compiler.ts`:
`transpile(bytecode, deployedBytecode, originalBytecodeLength)` and
`transpileRawBytecode(deployedBytecode)`. -/
structure Transpiler where
  transpile : List Nat → List Nat → Nat → TranspilationResult
  transpileRawBytecode : List Nat → TranspilationResult

/-- The external collaborators of `compile`: the runtime JSON parser
(`none` models a parse exception), solc-js `compile`, the construction
`new TranspilerImpl(new OpcodeWhitelistImpl(), new OpcodeReplacerImpl(a))`
from the execution manager address value, and the
`EXECUTION_MANAGER_ADDRESS` environment variable (a string or
`undefined`). -/
structure ExternalEnv where
  jsonParse : String → Option JsVal
  solcCompile : String → String
  mkTranspiler : JsVal → Transpiler
  executionManagerAddressEnvVar : JsVal

/-! ## compiler.ts, translated function by function -/

/-- The instruction-byte index and bytecode-kind tag interpolated into a
transpiler error message (`compiler.ts` lines 252-256):
`FILE:CONTRACT error [MESSAGE] at index INDEX of (deployed )bytecode`. -/
def transpilerErrorMessage (file contract : String) (e : TranspilationError)
    (isDeployedBytecode : Bool) : String :=
  file ++ ":" ++ contract ++ " error [" ++ e.message ++ "] at index "
    ++ toString e.index ++ " of "
    ++ (if isDeployedBytecode then "deployed bytecode" else "bytecode")

/-- One solc-formatted error record produced for one transpilation error
(`compiler.ts` lines 257-263). -/
def solcErrorRecord (file contract : String) (e : TranspilationError)
    (isDeployedBytecode : Bool) : JsVal :=
  .obj [("component", .str "general"),
        ("formattedMessage", .str (transpilerErrorMessage file contract e isDeployedBytecode)),
        ("message", .str (transpilerErrorMessage file contract e isDeployedBytecode)),
        ("severity", .str "error"),
        ("type", .str "CompilerError")]

/-- `getSolcErrorsFromTranspilerErrors` (`compiler.ts` lines 245-265):
one record per transpilation error. -/
def getSolcErrorsFromTranspilerErrors (transpilationErrors : List TranspilationError)
    (file contract : String) (isDeployedBytecode : Bool) : List JsVal :=
  transpilationErrors.map (fun x => solcErrorRecord file contract x isDeployedBytecode)

/-- `getFormattedSolcErrorOutput` (`compiler.ts` lines 276-293): a
stringified solc output object with a single error record. -/
def getFormattedSolcErrorOutput (message severity component ty : String) : String :=
  stringifyVal (.obj [("errors", .arr [.obj
    [("component", .str component),
     ("formattedMessage", .str message),
     ("message", .str message),
     ("severity", .str severity),
     ("type", .str ty)]])])

/-- `getFormattedSolcErrorOutput` at its default arguments
(severity `error`, component `general`, type `JSONError`), the only form
the code uses. -/
def getFormattedSolcErrorOutputDefault (message : String) : String :=
  getFormattedSolcErrorOutput message "error" "general" "JSONError"

/-- `getAuxData` (`compiler.ts` lines 326-332): reads
`evm.legacyAssembly[".data"]["0"][".auxdata"]`, returning `undefined`
when any step throws (the `try`/`catch`). -/
def getAuxData (contractSolcOutput : JsVal) : JsVal :=
  match (do
      let evm ← jsGetE contractSolcOutput "evm"
      let la ← jsGetE evm "legacyAssembly"
      let d ← jsGetE la ".data"
      let z ← jsGetE d "0"
      jsGetE z ".auxdata" : Except String JsVal) with
  | .ok v => v
  | .error _ => .undef

mutual
/-- Coercion of a value to a string, as JavaScript applies to the
separator argument of `String.prototype.split`. -/
def jsToStringCoerce : JsVal → String
  | .str s => s
  | .num n => toString n
  | .bool b => cond b "true" "false"
  | .null => "null"
  | .undef => "undefined"
  | .arr xs => String.intercalate "," (jsToStringCoerceList xs)
  | .obj _ => "[object Object]"

/-- Coercion of array elements for `jsToStringCoerce`. -/
def jsToStringCoerceList : List JsVal → List String
  | [] => []
  | x :: xs => jsToStringCoerce x :: jsToStringCoerceList xs
end

/-- The longest prefix of `text` not containing `sep` (nonempty) as a
contiguous run: the first element of JavaScript `text.split(sep)`. -/
def firstSegCh : List Char → List Char → List Char
  | [], _ => []
  | c :: rest, sep =>
      if sep.isPrefixOf (c :: rest) then [] else c :: firstSegCh rest sep

/-- String form of `firstSegCh`: `text.split(sep)[0]` for nonempty
`sep`. -/
def firstSeg (text sep : String) : String := String.mk (firstSegCh text.data sep.data)

/-- `getBytecode` (`compiler.ts` lines 302-316): reads the requested
bytecode field and, when an auxdata trailer is present (truthy), keeps
only `code.split(auxData)[0]`; any exception yields `undefined` (the
`try`/`catch`).  An empty-string separator reproduces the JavaScript
`split("")` per-character behaviour. -/
def getBytecode (contractSolcOutput : JsVal) (isDeployedBytecode : Bool) : JsVal :=
  match (do
      let evm ← jsGetE contractSolcOutput "evm"
      let bc ← jsGetE evm (if isDeployedBytecode then "deployedBytecode" else "bytecode")
      let code ← jsGetE bc "object"
      let auxData := getAuxData contractSolcOutput
      if truthy auxData then
        match code with
        | .str s =>
            let sep := jsToStringCoerce auxData
            if sep = "" then
              .ok (match s.data with
                | [] => JsVal.undef
                | c :: _ => JsVal.str (String.singleton c))
            else .ok (JsVal.str (firstSeg s sep))
        | _ => .error "TypeError: code.split is not a function"
      else .ok code : Except String JsVal) with
  | .ok v => v
  | .error _ => (.undef)

/-- An argument package passed to the external transpiler during
`transpileContract` (instrumentation recording what the transpiler was
invoked on). -/
inductive TranspilerCall where
  | full (bytecode deployedBytecode : List Nat) (originalBytecodeLength : Nat)
  | raw (bytecode : List Nat)

/-- `transpileContract` (`compiler.ts` lines 343-404), also returning
the list of transpiler invocations it performed (instrumentation; the
returned `JsVal` is the function's actual result).  Constructor bytecode
is handled first: on its failure the solc-error object is returned
immediately and the deployed bytecode is never transpiled. -/
def transpileContractCore (tr : Transpiler) (contractSolcOutput : JsVal)
    (filename contractName : String) : Except String (JsVal × List TranspilerCall) := do
  let evm ← jsGetE contractSolcOutput "evm"
  let bc ← jsGetE evm "bytecode"
  let bobj ← jsGetE bc "object"
  let sizeBuf ← hexStrToBufE bobj
  let originalBytecodeSize := sizeBuf.length
  let bytecode := getBytecode contractSolcOutput false
  let deployedBytecode := getBytecode contractSolcOutput true
  if ¬ truthy bytecode ∧ ¬ truthy deployedBytecode then
    .ok (contractSolcOutput, [])
  else do
    let step1 ←
      (if truthy bytecode then do
        let bbuf ← hexStrToBufE bytecode
        let dbuf ← hexStrToBufE deployedBytecode
        match tr.transpile bbuf dbuf originalBytecodeSize with
        | .errored errs =>
            .ok (Sum.inl (JsVal.obj [("errors",
              .arr (getSolcErrorsFromTranspilerErrors errs filename contractName false))],
              [TranspilerCall.full bbuf dbuf originalBytecodeSize]))
        | .succeeded newB =>
            .ok (Sum.inr (JsVal.str (bufToHexString newB),
              [TranspilerCall.full bbuf dbuf originalBytecodeSize]))
      else .ok (Sum.inr (bytecode, ([] : List TranspilerCall))) :
        Except String (Sum (JsVal × List TranspilerCall) (JsVal × List TranspilerCall)))
    match step1 with
    | .inl (errObj, calls) => .ok (errObj, calls)
    | .inr (newBytecode, calls) =>
      if truthy deployedBytecode then do
        let dbuf ← hexStrToBufE deployedBytecode
        match tr.transpileRawBytecode dbuf with
        | .errored errs =>
            .ok (JsVal.obj [("errors",
              .arr (getSolcErrorsFromTranspilerErrors errs filename contractName true))],
              calls ++ [TranspilerCall.raw dbuf])
        | .succeeded newD =>
            .ok (JsVal.obj [("bytecode", newBytecode),
              ("deployedBytecode", .str (bufToHexString newD))],
              calls ++ [TranspilerCall.raw dbuf])
      else
        .ok (JsVal.obj [("bytecode", newBytecode),
          ("deployedBytecode", deployedBytecode)], calls)

/-- `transpileContract` proper: the value returned to `compile`. -/
def transpileContract (tr : Transpiler) (contractSolcOutput : JsVal)
    (filename contractName : String) : Except String JsVal :=
  (transpileContractCore tr contractSolcOutput filename contractName).map Prod.fst

/-- Array test (`Array.isArray`). -/
def isJsArray : JsVal → Bool
  | .arr _ => true
  | _ => false

/-- `getExecutionManagerAddress` (`compiler.ts` lines 113-118):
`configObject.settings.executionManagerAddress ||
process.env.EXECUTION_MANAGER_ADDRESS`. -/
def getExecutionManagerAddress (env : ExternalEnv) (configObject : JsVal) :
    Except String JsVal := do
  let settings ← jsGetE configObject "settings"
  let a ← jsGetE settings "executionManagerAddress"
  .ok (jsOr a env.executionManagerAddressEnvVar)

/-- Input-validation message for a missing `settings` object
(`compiler.ts` line 130). -/
def inputErrorMessage1 : String :=
  "Input must include \"settings\" object in top-level object."

/-- Input-validation message for a missing or invalid execution manager
address (`compiler.ts` line 139). -/
def inputErrorMessage2 : String :=
  "Input must include \"executionManagerAddress\" field in the \"settings\" object or there must be an \"EXECUTION_MANAGER_ADDRESS\" environment variable, and it must be a valid Ethereum address as a hex string (case insensitive)."

/-- Input-validation message for a missing/empty `outputSelection`
(`compiler.ts` line 150). -/
def inputErrorMessage3 : String :=
  "Input must include a populated \"outputSelection\" object in \"settings\""

/-- Input-validation message for a malformed `outputSelection`
(`compiler.ts` lines 159 and 167). -/
def inputErrorMessage4 : String :=
  "\"outputSelection\" configuration in \"settings\" must be of the form: \x7b \"filename\": \x7b \"contractName\": [] \x7d, ... \x7d"

/-- The inner loop of `getInputErrors` (`compiler.ts` lines 162-170):
every contract configuration must be an array. -/
def checkContractConfigs : List JsVal → Option String
  | [] => none
  | v :: rest =>
      if isJsArray v then checkContractConfigs rest
      else some (getFormattedSolcErrorOutputDefault inputErrorMessage4)

/-- The outer loop of `getInputErrors` (`compiler.ts` lines 154-171):
every file configuration must be a non-array object whose values are
arrays. -/
def checkFileConfigs (configObject : JsVal) :
    List (String × JsVal) → Except String (Option String)
  | [] => .ok none
  | (filename, fileConfig) :: rest =>
      if jsTypeof fileConfig ≠ "object" || isJsArray fileConfig then
        .ok (some (getFormattedSolcErrorOutputDefault inputErrorMessage4))
      else do
        let outSel ← jsGetPathE configObject ["settings", "outputSelection"]
        let vals ← jsEntriesE (jsGet outSel filename)
        match checkContractConfigs (vals.map Prod.snd) with
        | some e => .ok (some e)
        | none => checkFileConfigs configObject rest

/-- `getInputErrors` (`compiler.ts` lines 127-172): `some errorOutput`
when the configuration is invalid, `none` (TypeScript `undefined`) when
valid. -/
def getInputErrors (env : ExternalEnv) (configObject : JsVal) :
    Except String (Option String) := do
  let settings ← jsGetE configObject "settings"
  if ¬ truthy settings ∨ jsTypeof settings ≠ "object" then
    .ok (some (getFormattedSolcErrorOutputDefault inputErrorMessage1))
  else do
    let executionManagerAddress ← getExecutionManagerAddress env configObject
    if ¬ truthy executionManagerAddress ∨ ¬ isValidHexAddress executionManagerAddress then
      .ok (some (getFormattedSolcErrorOutputDefault inputErrorMessage2))
    else do
      let outSel ← jsGetE settings "outputSelection"
      if ¬ truthy outSel ∨ jsTypeof outSel ≠ "object" then
        .ok (some (getFormattedSolcErrorOutputDefault inputErrorMessage3))
      else do
        let ents ← jsEntriesE outSel
        if ents.length = 0 then
          .ok (some (getFormattedSolcErrorOutputDefault inputErrorMessage3))
        else checkFileConfigs configObject ents

/-- `contractConfig.map((x) => x.toLowerCase())` (`compiler.ts` line
191): throws unless applied to an array of strings. -/
def jsMapToLowerE : JsVal → Except String JsVal
  | .arr xs => do
      let ys ← xs.mapM (fun x =>
        match x with
        | JsVal.str s => Except.ok (JsVal.str s.toLower)
        | _ => Except.error "TypeError: toLowerCase is not a function")
      .ok (JsVal.arr ys)
  | _ => .error "TypeError: map is not a function"

/-- `solcConfig.settings.outputSelection[filename][contractName]
.push("evm.legacyAssembly")` (`compiler.ts` lines 193-195). -/
def pushLegacyAssembly (acc : JsVal) (filename contractName : String) :
    Except String JsVal := do
  let cur ← jsGetPathE acc ["settings", "outputSelection", filename, contractName]
  match cur with
  | .arr xs =>
      jsSetPathE acc ["settings", "outputSelection", filename, contractName]
        (.arr (xs ++ [.str "evm.legacyAssembly"]))
  | _ => .error "TypeError: push is not a function"

/-- The inner loop of `getSolcConfig` (`compiler.ts` lines 190-197).
`"evm.legacyAssembly" in lowerConfig` and `"*" in lowerConfig` test
array indices, never elements, so the push always happens for array
configurations. -/
def solcConfigContractLoop (filename : String) :
    JsVal → List (String × JsVal) → Except String JsVal
  | acc, [] => .ok acc
  | acc, (contractName, contractConfig) :: rest => do
      let lowerConfig ← jsMapToLowerE contractConfig
      let i1 ← jsInE "evm.legacyAssembly" lowerConfig
      if i1 then solcConfigContractLoop filename acc rest
      else do
        let i2 ← jsInE "*" lowerConfig
        if i2 then solcConfigContractLoop filename acc rest
        else do
          let acc' ← pushLegacyAssembly acc filename contractName
          solcConfigContractLoop filename acc' rest

/-- The outer loop of `getSolcConfig` (`compiler.ts` lines 187-198). -/
def solcConfigFileLoop : JsVal → List (String × JsVal) → Except String JsVal
  | acc, [] => .ok acc
  | acc, (filename, fileConfig) :: rest => do
      let cents ← jsEntriesE fileConfig
      let acc' ← solcConfigContractLoop filename acc cents
      solcConfigFileLoop acc' rest

/-- `getSolcConfig` (`compiler.ts` lines 182-201): deep-clones the
config (`JSON.parse(JSON.stringify(config))` — the identity on these
immutable values), removes `settings.executionManagerAddress`, ensures
`evm.legacyAssembly` is output-selected, and stringifies. -/
def getSolcConfig (config : JsVal) : Except String String := do
  let c1 ← jsDeleteAtE config ["settings"] "executionManagerAddress"
  let outSel ← jsGetPathE c1 ["settings", "outputSelection"]
  let fents ← jsEntriesE outSel
  let c2 ← solcConfigFileLoop c1 fents
  .ok (stringifyVal c2)

/-- The inner loop of `formatOutput` (`compiler.ts` lines 217-230):
resolves the contract's output selection (falling back to `*`) and
deletes `evm.legacyAssembly` unless the selection — an array, tested
with the `in` operator against indices — appears to contain it. -/
def formatContractLoop (inputConfig : JsVal) (filename : String) :
    JsVal → List (String × JsVal) → Except String JsVal
  | acc, [] => .ok acc
  | acc, (contractName, _) :: rest => do
      let outSel ← jsGetPathE inputConfig ["settings", "outputSelection"]
      let b1 ← jsInE filename outSel
      let filenameConfig := if b1 then filename else "*"
      let sel1 ← jsGetE outSel filenameConfig
      let b2 ← jsInE contractName sel1
      let contractNameConfig := if b2 then contractName else "*"
      let outputConfig ← jsGetE sel1 contractNameConfig
      let i1 ← jsInE "evm.legacyAssembly" outputConfig
      if i1 then formatContractLoop inputConfig filename acc rest
      else do
        let i2 ← jsInE "*" outputConfig
        if i2 then formatContractLoop inputConfig filename acc rest
        else do
          let acc' ← jsDeleteAtE acc ["contracts", filename, contractName, "evm"]
            "legacyAssembly"
          formatContractLoop inputConfig filename acc' rest

/-- The outer loop of `formatOutput` (`compiler.ts` lines 214-231). -/
def formatFileLoop (inputConfig : JsVal) :
    JsVal → List (String × JsVal) → Except String JsVal
  | acc, [] => .ok acc
  | acc, (filename, fileObj) :: rest => do
      let cents ← jsEntriesE fileObj
      let acc' ← formatContractLoop inputConfig filename acc cents
      formatFileLoop inputConfig acc' rest

/-- `formatOutput` before the final stringification (`compiler.ts`
lines 213-233). -/
def formatOutputVal (transpiledOutput inputConfig : JsVal) : Except String JsVal := do
  let contracts ← jsGetE transpiledOutput "contracts"
  let fents ← jsEntriesE contracts
  formatFileLoop inputConfig transpiledOutput fents

/-- `formatOutput` (`compiler.ts` lines 213-234). -/
def formatOutput (transpiledOutput inputConfig : JsVal) : Except String String :=
  (formatOutputVal transpiledOutput inputConfig).map stringifyVal

/-- The per-contract body of `compile`'s loop (`compiler.ts` lines
78-106): transpile, write the (possibly empty) bytecode fields back —
the source performs each of the two assignments twice, lines 87-98, and
so does this translation — and append any transpilation errors to the
batch error array. -/
def processContract (tr : Transpiler) (res : JsVal) (filename contractName : String)
    (contractJson : JsVal) : Except String JsVal := do
  let output ← transpileContract tr contractJson filename contractName
  let b1 ← jsGetE output "bytecode"
  let s1 ← remove0xJsE (jsOr b1 (.str ""))
  let res1 ← jsSetPathE res
    ["contracts", filename, contractName, "evm", "bytecode", "object"] (.str s1)
  let d1 ← jsGetE output "deployedBytecode"
  let t1 ← remove0xJsE (jsOr d1 (.str ""))
  let res2 ← jsSetPathE res1
    ["contracts", filename, contractName, "evm", "deployedBytecode", "object"] (.str t1)
  let b2 ← jsGetE output "bytecode"
  let s2 ← remove0xJsE (jsOr b2 (.str ""))
  let res3 ← jsSetPathE res2
    ["contracts", filename, contractName, "evm", "bytecode", "object"] (.str s2)
  let d2 ← jsGetE output "deployedBytecode"
  let t2 ← remove0xJsE (jsOr d2 (.str ""))
  let res4 ← jsSetPathE res3
    ["contracts", filename, contractName, "evm", "deployedBytecode", "object"] (.str t2)
  let errsV ← jsGetE output "errors"
  if truthy errsV then do
    let cur0 ← jsGetE res4 "errors"
    let res5 ← if ¬ truthy cur0 then jsSetPathE res4 ["errors"] (.arr []) else .ok res4
    let cur ← jsGetE res5 "errors"
    match cur, errsV with
    | .arr a, .arr e => jsSetPathE res5 ["errors"] (.arr (a ++ e))
    | .arr a, .str s =>
        jsSetPathE res5 ["errors"]
          (.arr (a ++ s.data.map (fun c => JsVal.str (String.singleton c))))
    | .arr _, _ => .error "TypeError: spread argument is not iterable"
    | _, _ => .error "TypeError: push is not a function"
  else .ok res4

/-- The inner (per-contract) loop of `compile` (`compiler.ts` lines
76-107). -/
def processContractList (tr : Transpiler) (filename : String) :
    JsVal → List (String × JsVal) → Except String JsVal
  | res, [] => .ok res
  | res, (contractName, contractJson) :: rest => do
      let res' ← processContract tr res filename contractName contractJson
      processContractList tr filename res' rest

/-- The outer (per-file) loop of `compile` (`compiler.ts` lines
74-108). -/
def processFileList (tr : Transpiler) :
    JsVal → List (String × JsVal) → Except String JsVal
  | res, [] => .ok res
  | res, (filename, fileJson) :: rest => do
      let cents ← jsEntriesE fileJson
      let res' ← processContractList tr filename res cents
      processFileList tr res' rest

/-- `res.errors.filter((x) => x.severity === "error").length`
(`compiler.ts` line 63): counts records with severity `error`,
propagating the property-read exception on `null`/`undefined`
elements. -/
def countSevereErrors : List JsVal → Except String Nat
  | [] => .ok 0
  | x :: rest => do
      let sev ← jsGetE x "severity"
      let n ← countSevereErrors rest
      .ok (if sev matches .str "error" then n + 1 else n)

/-- `compile` (`compiler.ts` lines 38-111).  An unparseable
configuration string is forwarded verbatim to solc (`compiler.ts` lines
41-47, including the `todo: populate some errors` comment); a valid
parse is validated, compiled by solc, per-contract transpiled, and
formatted.  The optional solc callbacks parameter is passed through to
solc and does not otherwise affect the computation; it is not
modelled. -/
def compile (env : ExternalEnv) (configJsonString : String) : Except String String := do
  match env.jsonParse configJsonString with
  | none => .ok (env.solcCompile configJsonString)
  | some json => do
    let inputErrors ← getInputErrors env json
    match inputErrors with
    | some errStr => .ok errStr
    | none => do
      let solcConfig ← getSolcConfig json
      let resString := env.solcCompile solcConfig
      let res ← (match env.jsonParse resString with
        | some r => Except.ok r
        | none => Except.error "SyntaxError: unexpected token in JSON.parse")
      let hasIn ← jsInE "errors" res
      let severe ←
        (if hasIn then do
          let errs ← jsGetE res "errors"
          if truthy errs then
            match errs with
            | .arr xs => do
                let n ← countSevereErrors xs
                Except.ok (decide (0 < n))
            | _ => Except.error "TypeError: filter is not a function"
          else Except.ok false
        else Except.ok false : Except String Bool)
      if severe then .ok resString
      else do
        let ema ← getExecutionManagerAddress env json
        let transpiler := env.mkTranspiler ema
        let contracts ← jsGetE res "contracts"
        let fents ← jsEntriesE contracts
        let res' ← processFileList transpiler res fents
        formatOutput res' json

/-! ## The opcode whitelist mask -/

/-- `DEFAULT_OPCODE_WHITELIST_MASK` (`src/unnamed/part_000` lines
12-13): the fixed built-in whitelist mask. -/
def DEFAULT_OPCODE_WHITELIST_MASK : String :=
  "0x600a0000000000000000001fffffffffffffffff0fcf000063f000013fff0fff"

/-- Number of bits encoded by a hex-string mask (4 per hex digit after
the optional `0x` prefix); `none` when the string is not hex. -/
def hexBitLength? (s : String) : Option Nat :=
  if (remove0x s).data.all isHexChar then some ((remove0x s).data.length * 4)
  else none

/-- The four bits of one hex digit, most significant first. -/
def hexCharBits (c : Char) : List Bool :=
  match hexDigitVal? c with
  | some n =>
      [decide (n / 8 % 2 = 1), decide (n / 4 % 2 = 1),
       decide (n / 2 % 2 = 1), decide (n % 2 = 1)]
  | none => [false, false, false, false]

/-- The bit sequence of a hex-string mask. -/
def maskBits (s : String) : List Bool :=
  ((remove0x s).data.map hexCharBits).flatten

/-- Modelled from the spec: `OpcodeWhitelistImpl` of
`@eth-optimism/rollup-dev-tools`, whose source is not under `src/`.
Its constructor takes an optional whitelist mask, defaulting to the
fixed built-in `DEFAULT_OPCODE_WHITELIST_MASK` (`compile` invokes it
with no argument, `compiler.ts` line 70); the mask must encode exactly
256 bits — one per opcode — and any other length is a configuration
error (spec §3 `WhitelistMask` invariant). -/
def OpcodeWhitelistImpl (whitelistMask : Option String) : Except String (List Bool) :=
  let mask := whitelistMask.getD DEFAULT_OPCODE_WHITELIST_MASK
  match hexBitLength? mask with
  | some n =>
      if n = 256 then .ok (maskBits mask)
      else .error "configuration error: whitelist mask must be exactly 256 bits"
  | none => .error "configuration error: whitelist mask must be a hex string"

/-! ## Concrete instances used by witnesses and counterexamples -/

/-- A transpiler stub whose constructor-bytecode pipeline fails and whose
raw (deployed-bytecode) pipeline also fails, with a distinct error. -/
def trCtorFail : Transpiler where
  transpile := fun _ _ _ => .errored [⟨2, "disallowed opcode"⟩]
  transpileRawBytecode := fun _ => .errored [⟨7, "raw pipeline failure"⟩]

/-- A transpiler stub that succeeds on both pipelines, appending a
distinguishing byte. -/
def trAllOk : Transpiler where
  transpile := fun b _ _ => .succeeded (b ++ [255])
  transpileRawBytecode := fun b => .succeeded (b ++ [254])

/-- A minimal well-formed per-contract solc output. -/
def sampleContract : JsVal := .obj [("evm", .obj [
  ("bytecode", .obj [("object", .str "6001600201")]),
  ("deployedBytecode", .obj [("object", .str "600360040a")])])]

/-- A second contract, with different bytecode. -/
def sampleContract2 : JsVal := .obj [("evm", .obj [
  ("bytecode", .obj [("object", .str "6005600601")]),
  ("deployedBytecode", .obj [("object", .str "600760080a")])])]

/-- A two-contract solc output batch. -/
def sampleBatch : JsVal := .obj [("contracts", .obj [("f.sol", .obj
  [("C", sampleContract), ("D", sampleContract2)])])]

/-- An environment whose JSON parser rejects every input: its `compile`
exercises the unparseable-configuration path. -/
def envC3 : ExternalEnv where
  jsonParse := fun _ => none
  solcCompile := fun s => "solc raw output for: " ++ s
  mkTranspiler := fun _ => trAllOk
  executionManagerAddressEnvVar := (.undef)

/-- An unparseable configuration string. -/
def cfgC3bad : String := "this is not valid json"

/-- A configuration whose output selection explicitly lists
`evm.legacyAssembly` for contract `C` of file `f.sol`. -/
def c10cfg : JsVal := .obj [("settings", .obj [("outputSelection", .obj
  [("f.sol", .obj [("C", .arr [.str "evm.legacyAssembly"])])])])]

/-- A per-contract solc output that carries a `legacyAssembly` field. -/
def c10Contract : JsVal := .obj [("evm", .obj [("legacyAssembly", .str "ASM"),
  ("bytecode", .obj [("object", .str "6001")])])]

/-- A transpiled-output batch holding `c10Contract`. -/
def c10tOut : JsVal := .obj [("contracts", .obj [("f.sol", .obj
  [("C", c10Contract)])])]

/-- What `formatOutput` produces from `c10tOut` under `c10cfg`: the
`legacyAssembly` field is gone despite being selected. -/
def c10res : JsVal := .obj [("contracts", .obj [("f.sol", .obj [("C", .obj
  [("evm", .obj [("bytecode", .obj [("object", .str "6001")])])])])])]

/-! ## Basic lemmas about the JavaScript value model -/

theorem objGet_objSet_same (fs : List (String × JsVal)) (k : String) (v : JsVal) :
    objGet (objSet fs k v) k = some v := by
  induction fs with
  | nil => simp [objSet, objGet]
  | cons p rest ih =>
      obtain ⟨k', v'⟩ := p
      by_cases h : k' = k
      · simp [objSet, h, objGet]
      · simp [objSet, h, objGet, ih]

theorem objGet_objSet_ne (fs : List (String × JsVal)) (k k' : String) (v : JsVal)
    (h : k' ≠ k) : objGet (objSet fs k v) k' = objGet fs k' := by
  induction fs with
  | nil => simp [objSet, objGet, Ne.symm h]
  | cons p rest ih =>
      obtain ⟨k'', v'⟩ := p
      by_cases hk : k'' = k
      · subst hk
        simp [objSet, objGet, Ne.symm h]
      · simp [objSet, hk, objGet, ih]

theorem objGet_objDel_same (fs : List (String × JsVal)) (k : String) :
    objGet (objDel fs k) k = none := by
  induction fs with
  | nil => simp [objDel, objGet]
  | cons p rest ih =>
      obtain ⟨k', v'⟩ := p
      by_cases h : k' = k
      · simp [objDel, h, ih]
      · simp [objDel, h, objGet, ih]

theorem objGet_objDel_ne (fs : List (String × JsVal)) (k k' : String)
    (h : k' ≠ k) : objGet (objDel fs k) k' = objGet fs k' := by
  induction fs with
  | nil => simp [objDel, objGet]
  | cons p rest ih =>
      obtain ⟨k'', v'⟩ := p
      by_cases hk : k'' = k
      · subst hk
        simp [objDel, objGet, Ne.symm h, ih]
      · simp [objDel, hk, objGet, ih]

theorem jsGet_obj (fs : List (String × JsVal)) (k : String) :
    jsGet (.obj fs) k = (objGet fs k).getD .undef := rfl

theorem jsGetE_obj (fs : List (String × JsVal)) (k : String) :
    jsGetE (.obj fs) k = .ok (jsGet (.obj fs) k) := rfl

theorem except_bind_eq_ok {α β : Type} (x : Except String α) (f : α → Except String β)
    (b : β) : (x >>= f) = .ok b ↔ ∃ a, x = .ok a ∧ f a = .ok b := by
  cases x <;> simp [Bind.bind, Except.bind]

theorem except_ok_bind {α β : Type} (a : α) (f : α → Except String β) :
    (Except.ok a >>= f) = f a := rfl

theorem except_error_bind {α β : Type} (e : String) (f : α → Except String β) :
    ((Except.error e : Except String α) >>= f) = .error e := rfl

theorem strStartsWith_prefix_append (p t : String) :
    strStartsWith (p ++ t) p = true := by
  simp only [strStartsWith, String.data_append]
  rw [List.isPrefixOf_iff_prefix]
  exact List.prefix_append _ _

/-! ## Claim C4 -/

/-- C4: for a fixed input configuration string and fixed external
collaborators (the same parse function, solc, transpiler factory —
i.e. fixed whitelist mask and execution manager address — and
environment variable), two invocations of `compile` produce
bit-for-bit identical output: the embedding is a pure function with no
randomness and no dependence on the traversal order of any unordered
structure (objects are traversed in their fixed insertion order). -/
theorem c4_compile_deterministic (env : ExternalEnv) (configJsonString : String) :
    compile env configJsonString = compile env configJsonString := rfl

/-! ## Claim C6 -/

/-- C6: `getSolcErrorsFromTranspilerErrors` produces exactly one record
per `TranspilationError`; each record has `component`, `message`,
`severity` and `type` fields (plus `formattedMessage`), and each message
embeds the file name, the contract name, the byte index, and whether the
error occurred in constructor or deployed bytecode. -/
theorem c6_one_record_per_error (errs : List TranspilationError)
    (file contract : String) (dep : Bool) :
    (getSolcErrorsFromTranspilerErrors errs file contract dep).length = errs.length ∧
    ∀ i e, errs.get? i = some e →
      (getSolcErrorsFromTranspilerErrors errs file contract dep).get? i =
          some (solcErrorRecord file contract e dep) ∧
        jsGet (solcErrorRecord file contract e dep) "component" = .str "general" ∧
        jsGet (solcErrorRecord file contract e dep) "message" =
          .str (transpilerErrorMessage file contract e dep) ∧
        jsGet (solcErrorRecord file contract e dep) "severity" = .str "error" ∧
        jsGet (solcErrorRecord file contract e dep) "type" = .str "CompilerError" ∧
        (∃ s1, transpilerErrorMessage file contract e dep =
          file ++ ":" ++ contract ++ s1) ∧
        (∃ s2, transpilerErrorMessage file contract e dep =
          s2 ++ toString e.index ++ " of "
            ++ (if dep then "deployed bytecode" else "bytecode")) := by
  constructor
  · simp [getSolcErrorsFromTranspilerErrors]
  · intro i e hi
    refine ⟨?_, rfl, rfl, rfl, rfl, ?_, ?_⟩
    · rw [List.get?_eq_getElem?] at hi ⊢
      simp [getSolcErrorsFromTranspilerErrors, List.getElem?_map, hi]
    · exact ⟨" error [" ++ e.message ++ "] at index " ++ toString e.index ++ " of "
        ++ (if dep then "deployed bytecode" else "bytecode"), by
          simp [transpilerErrorMessage, String.append_assoc]⟩
    · exact ⟨file ++ ":" ++ contract ++ " error [" ++ e.message ++ "] at index ", by
        simp [transpilerErrorMessage, String.append_assoc]⟩

/-- Witness for C6 at a concrete error list. -/
theorem c6_one_record_per_error_witness :
    ([⟨3, "bad"⟩, ⟨9, "worse"⟩] : List TranspilationError).get? 1 = some ⟨9, "worse"⟩ ∧
    (getSolcErrorsFromTranspilerErrors [⟨3, "bad"⟩, ⟨9, "worse"⟩] "f.sol" "C" true).get? 1 =
      some (solcErrorRecord "f.sol" "C" ⟨9, "worse"⟩ true) :=
  ⟨rfl, ((c6_one_record_per_error [⟨3, "bad"⟩, ⟨9, "worse"⟩] "f.sol" "C" true).2 1
    ⟨9, "worse"⟩ rfl).1⟩

/-! ## Claim C9 -/

set_option maxRecDepth 100000 in
/-- C9: the whitelist mask is optional with the fixed built-in default
`DEFAULT_OPCODE_WHITELIST_MASK`; that default encodes exactly 256 bits,
the mask actually used always has exactly 256 bits, and any mask of a
different bit length (or a non-hex mask) is a configuration error. -/
theorem c9_whitelist_mask_256_bits :
    hexBitLength? DEFAULT_OPCODE_WHITELIST_MASK = some 256 ∧
    OpcodeWhitelistImpl none = OpcodeWhitelistImpl (some DEFAULT_OPCODE_WHITELIST_MASK) ∧
    (∃ w, OpcodeWhitelistImpl none = .ok w ∧ w.length = 256) ∧
    (∀ m n, hexBitLength? m = some n → n ≠ 256 →
      OpcodeWhitelistImpl (some m) =
        .error "configuration error: whitelist mask must be exactly 256 bits") ∧
    (∀ m, hexBitLength? m = none →
      OpcodeWhitelistImpl (some m) =
        .error "configuration error: whitelist mask must be a hex string") := by
  refine ⟨by decide, rfl, ⟨maskBits DEFAULT_OPCODE_WHITELIST_MASK, rfl, by decide⟩, ?_, ?_⟩
  · intro m n h hn
    simp [OpcodeWhitelistImpl, h, hn]
  · intro m h
    simp [OpcodeWhitelistImpl, h]

set_option maxRecDepth 100000 in
/-- Witness for C9: an 8-bit mask is rejected as a configuration
error. -/
theorem c9_whitelist_mask_256_bits_witness :
    hexBitLength? "0xff" = some 8 ∧
    OpcodeWhitelistImpl (some "0xff") =
      .error "configuration error: whitelist mask must be exactly 256 bits" :=
  ⟨rfl, (c9_whitelist_mask_256_bits.2.2.2.1) "0xff" 8 rfl (by decide)⟩

/-! ## Claim C3 -/

/-- C3: contradicting the claim for the unparseable-configuration case,
`compile` does not fail fast with a single formatted error object on an
unparseable configuration string: it invokes the solc compilation step
on the raw string and returns that output verbatim (the code's own
`todo: populate some errors` comment marks the missing error
population).  The last two conjuncts show the returned string is not a
formatted error object: every `getFormattedSolcErrorOutput` result
starts with a brace, the forwarded solc output here does not. -/
theorem c3_unparseable_config_runs_solc :
    compile envC3 cfgC3bad = .ok (envC3.solcCompile cfgC3bad) ∧
    strStartsWith (envC3.solcCompile cfgC3bad) "\x7b" = false ∧
    (∀ m sev comp ty,
      strStartsWith (getFormattedSolcErrorOutput m sev comp ty) "\x7b" = true) := by
  refine ⟨rfl, rfl, ?_⟩
  intro m sev comp ty
  have h : getFormattedSolcErrorOutput m sev comp ty =
      "\x7b" ++ (String.intercalate ","
        (stringifyFields [("errors", .arr [.obj
          [("component", .str comp), ("formattedMessage", .str m), ("message", .str m),
           ("severity", .str sev), ("type", .str ty)]])]) ++ "\x7d") := by
    simp only [getFormattedSolcErrorOutput, stringifyVal, String.append_assoc]
  rw [h]
  exact strStartsWith_prefix_append _ _

/-! ## Lemmas for auxdata stripping (C5) and transpileContract (C5, C7) -/

theorem firstSegCh_prefix (text sep : List Char) : firstSegCh text sep <+: text := by
  induction text with
  | nil => simp [firstSegCh]
  | cons c rest ih =>
      by_cases h : sep.isPrefixOf (c :: rest)
      · simp [firstSegCh, h]
      · simp only [firstSegCh, if_neg h]
        exact (List.cons_prefix_cons).mpr ⟨rfl, ih⟩

theorem not_infix_firstSegCh (text sep : List Char) (hne : sep ≠ []) :
    ¬ sep <:+: firstSegCh text sep := by
  induction text with
  | nil =>
      simp [firstSegCh, List.infix_nil, hne]
  | cons c rest ih =>
      by_cases h : sep.isPrefixOf (c :: rest)
      · simp [firstSegCh, h, List.infix_nil, hne]
      · simp only [firstSegCh, if_neg h]
        intro hinf
        rcases List.infix_cons_iff.mp hinf with hpre | hinf2
        · have h2 : firstSegCh rest sep <+: rest := firstSegCh_prefix rest sep
          have h3 : (c :: firstSegCh rest sep) <+: (c :: rest) :=
            List.cons_prefix_cons.mpr ⟨rfl, h2⟩
          exact h (List.isPrefixOf_iff_prefix.mpr (hpre.trans h3))
        · exact ih hinf2

theorem hexStrToBufE_eq_ok (v : JsVal) (l : List Nat) :
    hexStrToBufE v = .ok l ↔ ∃ s, v = .str s ∧ l = hexStrToBufStr s := by
  cases v <;> simp [hexStrToBufE]
  exact eq_comm

theorem string_data_eq_nil (s : String) (h : s.data = []) : s = "" := by
  cases s
  simp_all

/-! ## Claim C5 -/

/-- C5: `getBytecode` strips a present (truthy) auxdata trailer from the
requested bytecode — the result is the segment of the bytecode before
the first occurrence of the auxdata, so the auxdata never occurs in what
is returned and is not itself transpiled — and passes the bytecode
through unmodified when no auxdata is present.  The third part shows the
transpiler only ever receives the (hex-decoded) output of `getBytecode`
for the constructor and deployed bytecode during `transpileContract`. -/
theorem c5_auxdata_stripped (cout : JsVal) (dep : Bool) (code : String)
    (hcode : jsGetPathE cout
      ["evm", if dep then "deployedBytecode" else "bytecode", "object"] =
        .ok (.str code)) :
    (¬ truthy (getAuxData cout) → getBytecode cout dep = .str code) ∧
    (∀ a, getAuxData cout = .str a → a ≠ "" →
      getBytecode cout dep = .str (firstSeg code a) ∧
      ¬ a.data <:+: (firstSeg code a).data) ∧
    (∀ tr f c out calls, transpileContractCore tr cout f c = .ok (out, calls) →
      (∀ b d n, TranspilerCall.full b d n ∈ calls →
        ∃ bs ds, getBytecode cout false = .str bs ∧ getBytecode cout true = .str ds ∧
          b = hexStrToBufStr bs ∧ d = hexStrToBufStr ds) ∧
      (∀ b, TranspilerCall.raw b ∈ calls →
        ∃ ds, getBytecode cout true = .str ds ∧ b = hexStrToBufStr ds)) := by
  simp only [jsGetPathE, except_bind_eq_ok] at hcode
  obtain ⟨evm, hevm, bc, hbc, cv, hcv, hpure⟩ := hcode
  injection hpure with hpure'
  subst hpure'
  have hcv' : jsGetE bc "object" = .ok (.str code) := hcv
  refine ⟨?_, ?_, ?_⟩
  · intro hnt
    simp [getBytecode, except_ok_bind, hevm, hbc, hcv', hnt]
  · intro a ha hane
    have htr : truthy (JsVal.str a) = true := by
      simp [truthy, hane]
    constructor
    · simp [getBytecode, except_ok_bind, hevm, hbc, hcv', ha, htr, hane,
        jsToStringCoerce, firstSeg]
    · intro hinf
      refine not_infix_firstSegCh code.data a.data ?_ ?_
      · intro hd
        exact hane (string_data_eq_nil a hd)
      · simpa [firstSeg] using hinf
  · intro tr f c out calls h
    rw [transpileContractCore] at h
    simp only [except_bind_eq_ok] at h
    obtain ⟨evm2, hevm2, bc2, hbc2, bobj2, hbobj2, sizeBuf, hsize, h⟩ := h
    by_cases hempty :
        ¬ truthy (getBytecode cout false) ∧ ¬ truthy (getBytecode cout true)
    · rw [if_pos hempty] at h
      cases h
      exact ⟨fun b d n hmem => absurd hmem (List.not_mem_nil _),
        fun b hmem => absurd hmem (List.not_mem_nil _)⟩
    · rw [if_neg hempty] at h
      simp only [except_bind_eq_ok] at h
      obtain ⟨step1, hstep1, h⟩ := h
      by_cases htb : truthy (getBytecode cout false)
      · rw [if_pos htb] at hstep1
        simp only [except_bind_eq_ok] at hstep1
        obtain ⟨bbuf, hbbuf, dbuf, hdbuf, hstep1⟩ := hstep1
        obtain ⟨bs, hbs, hbufeq⟩ := (hexStrToBufE_eq_ok _ _).mp hbbuf
        obtain ⟨ds, hds, hdufeq⟩ := (hexStrToBufE_eq_ok _ _).mp hdbuf
        cases hT : tr.transpile bbuf dbuf sizeBuf.length with
        | errored errs =>
            rw [hT] at hstep1
            simp only at hstep1
            cases hstep1
            simp only at h
            cases h
            refine ⟨?_, ?_⟩
            · intro b d n hmem
              have hfull := List.mem_singleton.mp hmem
              injection hfull with h1 h2 h3
              subst h1; subst h2
              exact ⟨bs, ds, hbs, hds, hbufeq, hdufeq⟩
            · intro b hmem
              have hraw := List.mem_singleton.mp hmem
              cases hraw
        | succeeded newB =>
            rw [hT] at hstep1
            simp only at hstep1
            cases hstep1
            simp only at h
            by_cases htd : truthy (getBytecode cout true)
            · rw [if_pos htd] at h
              simp only [except_bind_eq_ok] at h
              obtain ⟨dbuf2, hdbuf2, h⟩ := h
              obtain ⟨ds2, hds2, hd2eq⟩ := (hexStrToBufE_eq_ok _ _).mp hdbuf2
              cases hR : tr.transpileRawBytecode dbuf2 with
              | errored errs2 =>
                  rw [hR] at h
                  cases h
                  refine ⟨?_, ?_⟩
                  · intro b d n hmem
                    simp only [List.mem_append, List.mem_singleton] at hmem
                    rcases hmem with hfull | hraw
                    · injection hfull with h1 h2 h3
                      subst h1
                      subst h2
                      exact ⟨bs, ds, hbs, hds, hbufeq, hdufeq⟩
                    · cases hraw
                  · intro b hmem
                    simp only [List.mem_append, List.mem_singleton] at hmem
                    rcases hmem with hfull | hraw
                    · cases hfull
                    · cases hraw
                      exact ⟨ds2, hds2, hd2eq⟩
              | succeeded newD =>
                  rw [hR] at h
                  cases h
                  refine ⟨?_, ?_⟩
                  · intro b d n hmem
                    simp only [List.mem_append, List.mem_singleton] at hmem
                    rcases hmem with hfull | hraw
                    · injection hfull with h1 h2 h3
                      subst h1
                      subst h2
                      exact ⟨bs, ds, hbs, hds, hbufeq, hdufeq⟩
                    · cases hraw
                  · intro b hmem
                    simp only [List.mem_append, List.mem_singleton] at hmem
                    rcases hmem with hfull | hraw
                    · cases hfull
                    · cases hraw
                      exact ⟨ds2, hds2, hd2eq⟩
            · rw [if_neg htd] at h
              cases h
              refine ⟨?_, ?_⟩
              · intro b d n hmem
                rcases List.mem_singleton.mp hmem with hfull
                cases hfull
                exact ⟨bs, ds, hbs, hds, hbufeq, hdufeq⟩
              · intro b hmem
                rcases List.mem_singleton.mp hmem with hraw
                cases hraw
      · rw [if_neg htb] at hstep1
        cases hstep1
        simp only at h
        have htd : truthy (getBytecode cout true) := by
          by_contra htd
          exact hempty ⟨htb, htd⟩
        rw [if_pos htd] at h
        simp only [except_bind_eq_ok] at h
        obtain ⟨dbuf2, hdbuf2, h⟩ := h
        obtain ⟨ds2, hds2, hd2eq⟩ := (hexStrToBufE_eq_ok _ _).mp hdbuf2
        cases hR : tr.transpileRawBytecode dbuf2 with
        | errored errs2 =>
            rw [hR] at h
            cases h
            refine ⟨?_, ?_⟩
            · intro b d n hmem
              simp only [List.nil_append, List.mem_singleton] at hmem
              cases hmem
            · intro b hmem
              simp only [List.nil_append, List.mem_singleton] at hmem
              cases hmem
              exact ⟨ds2, hds2, hd2eq⟩
        | succeeded newD =>
            rw [hR] at h
            cases h
            refine ⟨?_, ?_⟩
            · intro b d n hmem
              simp only [List.nil_append, List.mem_singleton] at hmem
              cases hmem
            · intro b hmem
              simp only [List.nil_append, List.mem_singleton] at hmem
              cases hmem
              exact ⟨ds2, hds2, hd2eq⟩

/-- Witness for C5 at a concrete contract output carrying an auxdata
trailer. -/
theorem c5_auxdata_stripped_witness :
    jsGetPathE (.obj [("evm", .obj [
        ("bytecode", .obj [("object", .str "6001cafe99")]),
        ("deployedBytecode", .obj [("object", .str "6002cafe99")]),
        ("legacyAssembly", .obj [(".data", .obj [("0", .obj
          [(".auxdata", .str "cafe99")])])])])])
      ["evm", "bytecode", "object"] = .ok (.str "6001cafe99") ∧
    getAuxData (.obj [("evm", .obj [
        ("bytecode", .obj [("object", .str "6001cafe99")]),
        ("deployedBytecode", .obj [("object", .str "6002cafe99")]),
        ("legacyAssembly", .obj [(".data", .obj [("0", .obj
          [(".auxdata", .str "cafe99")])])])])]) = .str "cafe99" ∧
    getBytecode (.obj [("evm", .obj [
        ("bytecode", .obj [("object", .str "6001cafe99")]),
        ("deployedBytecode", .obj [("object", .str "6002cafe99")]),
        ("legacyAssembly", .obj [(".data", .obj [("0", .obj
          [(".auxdata", .str "cafe99")])])])])]) false = .str (firstSeg "6001cafe99" "cafe99") := by
  refine ⟨rfl, rfl, ?_⟩
  exact ((c5_auxdata_stripped (.obj [("evm", .obj [
      ("bytecode", .obj [("object", .str "6001cafe99")]),
      ("deployedBytecode", .obj [("object", .str "6002cafe99")]),
      ("legacyAssembly", .obj [(".data", .obj [("0", .obj
        [(".auxdata", .str "cafe99")])])])])]) false "6001cafe99" rfl).2.1
    "cafe99" rfl (by decide)).1

/-! ## Claim C7 -/

/-- C7, counterexample: constructor and deployed bytecode are *not*
transpiled independently.  At this concrete contract, the deployed
bytecode is present (truthy) and its raw transpilation would fail with
its own error (second conjunct), yet because the constructor bytecode
transpilation fails, `transpileContract` returns only the constructor
error and the transpiler is never invoked on the deployed bytecode: the
recorded calls contain exactly one `full` invocation and no `raw`
invocation, and no deployed-bytecode error is reported. -/
theorem c7_not_independent_counterexample :
    truthy (getBytecode sampleContract true) = true ∧
    trCtorFail.transpileRawBytecode (hexStrToBufStr "600360040a") =
      .errored [⟨7, "raw pipeline failure"⟩] ∧
    transpileContractCore trCtorFail sampleContract "f.sol" "C" =
      .ok (.obj [("errors",
            .arr [solcErrorRecord "f.sol" "C" ⟨2, "disallowed opcode"⟩ false])],
          [TranspilerCall.full (hexStrToBufStr "6001600201")
            (hexStrToBufStr "600360040a") 5]) :=
  ⟨rfl, rfl, rfl⟩

/-- C7, amended: constructor and deployed bytecode are transpiled by
separate transpiler invocations and either phase may individually fail,
but sequentially, not independently: when the constructor-bytecode
transpilation fails, `transpileContract` returns the constructor error
records immediately — the deployed bytecode is not transpiled (the call
trace holds exactly the one `full` invocation) and any deployed-bytecode
failure goes unreported. -/
theorem c7_amended_constructor_failure_short_circuits
    (tr : Transpiler) (cout : JsVal) (f c : String)
    (so bs : String) (dbuf : List Nat) (es : List TranspilationError)
    (hsize : jsGetPathE cout ["evm", "bytecode", "object"] = .ok (.str so))
    (hb : getBytecode cout false = .str bs)
    (hbt : bs ≠ "")
    (hd : hexStrToBufE (getBytecode cout true) = .ok dbuf)
    (herr : tr.transpile (hexStrToBufStr bs) dbuf
      (hexStrToBufStr so).length = .errored es) :
    transpileContractCore tr cout f c =
      .ok (.obj [("errors", .arr (getSolcErrorsFromTranspilerErrors es f c false))],
           [TranspilerCall.full (hexStrToBufStr bs) dbuf (hexStrToBufStr so).length]) := by
  simp only [jsGetPathE, except_bind_eq_ok] at hsize
  obtain ⟨evm, hevm, bc, hbc, cv, hcv, hpure⟩ := hsize
  injection hpure with hpure'
  subst hpure'
  have htr : truthy (JsVal.str bs) = true := by
    simp [truthy, hbt]
  have hbb : hexStrToBufE (JsVal.str bs) = .ok (hexStrToBufStr bs) := rfl
  have hss : hexStrToBufE (JsVal.str so) = .ok (hexStrToBufStr so) := rfl
  rw [transpileContractCore]
  simp only [hevm, except_ok_bind, hbc, hcv, hss, hb, htr, hbb, hd, herr]
  rfl

/-- Witness for the amended C7 at the concrete counterexample input. -/
theorem c7_amended_constructor_failure_short_circuits_witness :
    getBytecode sampleContract false = .str "6001600201" ∧
    hexStrToBufE (getBytecode sampleContract true) =
      .ok (hexStrToBufStr "600360040a") ∧
    transpileContractCore trCtorFail sampleContract "g.sol" "D" =
      .ok (.obj [("errors", .arr (getSolcErrorsFromTranspilerErrors
            [⟨2, "disallowed opcode"⟩] "g.sol" "D" false))],
          [TranspilerCall.full (hexStrToBufStr "6001600201")
            (hexStrToBufStr "600360040a") (hexStrToBufStr "6001600201").length]) :=
  ⟨rfl, rfl,
    c7_amended_constructor_failure_short_circuits trCtorFail sampleContract "g.sol" "D"
      "6001600201" "6001600201" (hexStrToBufStr "600360040a")
      [⟨2, "disallowed opcode"⟩] rfl rfl (by decide) rfl rfl⟩

/-! ## Path-write machinery for the per-contract loop (C1, C8) -/

theorem jsSetPathE_obj1_spec (fs : List (String × JsVal)) (k : String) (v : JsVal) :
    jsSetPathE (.obj fs) [k] v = .ok (.obj (objSet fs k v)) := rfl

/-- Writing through a six-key path of objects: the write succeeds, the
path in the result holds the written value, and every sibling key at
every level is untouched. -/
theorem jsSetPathE_obj6_spec
    (r c1 c2 c3 c4 c5 : List (String × JsVal)) (k1 k2 k3 k4 k5 k6 : String) (v : JsVal)
    (h1 : objGet r k1 = some (.obj c1)) (h2 : objGet c1 k2 = some (.obj c2))
    (h3 : objGet c2 k3 = some (.obj c3)) (h4 : objGet c3 k4 = some (.obj c4))
    (h5 : objGet c4 k5 = some (.obj c5)) :
    ∃ r' c1' c2' c3' c4' c5',
      jsSetPathE (.obj r) [k1, k2, k3, k4, k5, k6] v = .ok (.obj r') ∧
      objGet r' k1 = some (.obj c1') ∧ objGet c1' k2 = some (.obj c2') ∧
      objGet c2' k3 = some (.obj c3') ∧ objGet c3' k4 = some (.obj c4') ∧
      objGet c4' k5 = some (.obj c5') ∧ objGet c5' k6 = some v ∧
      (∀ k, k ≠ k1 → objGet r' k = objGet r k) ∧
      (∀ k, k ≠ k2 → objGet c1' k = objGet c1 k) ∧
      (∀ k, k ≠ k3 → objGet c2' k = objGet c2 k) ∧
      (∀ k, k ≠ k4 → objGet c3' k = objGet c3 k) ∧
      (∀ k, k ≠ k5 → objGet c4' k = objGet c4 k) ∧
      (∀ k, k ≠ k6 → objGet c5' k = objGet c5 k) := by
  refine ⟨objSet r k1 (.obj (objSet c1 k2 (.obj (objSet c2 k3 (.obj (objSet c3 k4
      (.obj (objSet c4 k5 (.obj (objSet c5 k6 v)))))))))),
    objSet c1 k2 (.obj (objSet c2 k3 (.obj (objSet c3 k4 (.obj (objSet c4 k5
      (.obj (objSet c5 k6 v)))))))),
    objSet c2 k3 (.obj (objSet c3 k4 (.obj (objSet c4 k5 (.obj (objSet c5 k6 v)))))),
    objSet c3 k4 (.obj (objSet c4 k5 (.obj (objSet c5 k6 v)))),
    objSet c4 k5 (.obj (objSet c5 k6 v)),
    objSet c5 k6 v,
    ?_,
    objGet_objSet_same _ _ _, objGet_objSet_same _ _ _, objGet_objSet_same _ _ _,
    objGet_objSet_same _ _ _, objGet_objSet_same _ _ _, objGet_objSet_same _ _ _,
    fun k hk => objGet_objSet_ne _ _ _ _ hk,
    fun k hk => objGet_objSet_ne _ _ _ _ hk,
    fun k hk => objGet_objSet_ne _ _ _ _ hk,
    fun k hk => objGet_objSet_ne _ _ _ _ hk,
    fun k hk => objGet_objSet_ne _ _ _ _ hk,
    fun k hk => objGet_objSet_ne _ _ _ _ hk⟩
  simp only [jsSetPathE, jsGetE_obj, jsGet_obj, h1, h2, h3, h4, h5, Option.getD_some,
    except_ok_bind, jsSetProp]

/-- What the per-contract loop body writes: given a well-formed batch
object and a successful `transpileContract` result `out` (an object),
`processContract` succeeds, `evm.bytecode.object` and
`evm.deployedBytecode.object` of the contract hold exactly the strings
computed as `remove0x(out.bytecode || "")` and
`remove0x(out.deployedBytecode || "")`, and any error records of `out`
are appended to the batch error array. -/
theorem processContract_writes
    (tr : Transpiler) (f c : String)
    (rfs cf ff cjfs efs bfs dfs ofs : List (String × JsVal)) (s t : String)
    (hres : objGet rfs "contracts" = some (.obj cf))
    (hcf : objGet cf f = some (.obj ff))
    (hff : objGet ff c = some (.obj cjfs))
    (hevm : objGet cjfs "evm" = some (.obj efs))
    (hbc : objGet efs "bytecode" = some (.obj bfs))
    (hdc : objGet efs "deployedBytecode" = some (.obj dfs))
    (hout : transpileContract tr (.obj cjfs) f c = .ok (.obj ofs))
    (hb : remove0xJsE (jsOr (jsGet (.obj ofs) "bytecode") (.str "")) = .ok s)
    (hd : remove0xJsE (jsOr (jsGet (.obj ofs) "deployedBytecode") (.str "")) = .ok t)
    (herrv : truthy (jsGet (.obj ofs) "errors") = false ∨
      ∃ recs, jsGet (.obj ofs) "errors" = .arr recs)
    (herrs : objGet rfs "errors" = none ∨ ∃ es, objGet rfs "errors" = some (.arr es)) :
    ∃ res', processContract tr (.obj rfs) f c (.obj cjfs) = .ok res' ∧
      jsGetChain res' ["contracts", f, c, "evm", "bytecode", "object"] = .str s ∧
      jsGetChain res' ["contracts", f, c, "evm", "deployedBytecode", "object"] = .str t ∧
      (∀ recs, jsGet (.obj ofs) "errors" = .arr recs →
        ∀ e ∈ recs, e ∈ jsArrElems (jsGet res' "errors")) := by
  obtain ⟨r1, f1, g1, j1, e1, b1, hs1, o11, o12, o13, o14, o15, o16,
    fr11, fr12, fr13, fr14, fr15, fr16⟩ :=
    jsSetPathE_obj6_spec rfs cf ff cjfs efs bfs "contracts" f c "evm" "bytecode" "object"
      (.str s) hres hcf hff hevm hbc
  have hdc1 : objGet e1 "deployedBytecode" = some (.obj dfs) := by
    rw [fr15 _ (by decide)]
    exact hdc
  obtain ⟨r2, f2, g2, j2, e2, d2, hs2, o21, o22, o23, o24, o25, o26,
    fr21, fr22, fr23, fr24, fr25, fr26⟩ :=
    jsSetPathE_obj6_spec r1 f1 g1 j1 e1 dfs "contracts" f c "evm" "deployedBytecode"
      "object" (.str t) o11 o12 o13 o14 hdc1
  have hbc2 : objGet e2 "bytecode" = some (.obj b1) := by
    rw [fr25 _ (by decide)]
    exact o15
  obtain ⟨r3, f3, g3, j3, e3, b3, hs3, o31, o32, o33, o34, o35, o36,
    fr31, fr32, fr33, fr34, fr35, fr36⟩ :=
    jsSetPathE_obj6_spec r2 f2 g2 j2 e2 b1 "contracts" f c "evm" "bytecode" "object"
      (.str s) o21 o22 o23 o24 hbc2
  have hdc3 : objGet e3 "deployedBytecode" = some (.obj d2) := by
    rw [fr35 _ (by decide)]
    exact o25
  obtain ⟨r4, f4, g4, j4, e4, d4, hs4, o41, o42, o43, o44, o45, o46,
    fr41, fr42, fr43, fr44, fr45, fr46⟩ :=
    jsSetPathE_obj6_spec r3 f3 g3 j3 e3 d2 "contracts" f c "evm" "deployedBytecode"
      "object" (.str t) o31 o32 o33 o34 hdc3
  have eb : jsGetE (JsVal.obj ofs) "bytecode" = .ok (jsGet (.obj ofs) "bytecode") := rfl
  have ed : jsGetE (JsVal.obj ofs) "deployedBytecode" =
    .ok (jsGet (.obj ofs) "deployedBytecode") := rfl
  have ee : jsGetE (JsVal.obj ofs) "errors" = .ok (jsGet (.obj ofs) "errors") := rfl
  have herr4 : objGet r4 "errors" = objGet rfs "errors" := by
    rw [fr41 _ (by decide), fr31 _ (by decide), fr21 _ (by decide), fr11 _ (by decide)]
  have readB : jsGetChain (JsVal.obj r4)
      ["contracts", f, c, "evm", "bytecode", "object"] = .str s := by
    have h5 : objGet e4 "bytecode" = some (.obj b3) := by
      rw [fr45 _ (by decide)]
      exact o35
    simp only [jsGetChain, jsGet_obj, o41, o42, o43, o44, h5, o36, Option.getD_some]
  have readD : jsGetChain (JsVal.obj r4)
      ["contracts", f, c, "evm", "deployedBytecode", "object"] = .str t := by
    simp only [jsGetChain, jsGet_obj, o41, o42, o43, o44, o45, o46, Option.getD_some]
  rcases herrv with hfalse | ⟨recs, harr⟩
  · refine ⟨.obj r4, ?_, readB, readD, ?_⟩
    · rw [processContract]
      simp only [hout, except_ok_bind, eb, hb, hs1, ed, hd, hs2, hs3, hs4, ee, hfalse]
      simp
    · intro recs hrecs
      rw [hrecs] at hfalse
      simp [truthy] at hfalse
  · have htrue : truthy (jsGet (.obj ofs) "errors") = true := by
      rw [harr]
      rfl
    have hcur0 : jsGetE (JsVal.obj r4) "errors" =
        .ok ((objGet rfs "errors").getD .undef) := by
      rw [jsGetE_obj, jsGet_obj, herr4]
    rcases herrs with hnone | ⟨es, hsome⟩
    · refine ⟨.obj (objSet (objSet r4 "errors" (.arr [])) "errors" (.arr ([] ++ recs))),
        ?_, ?_, ?_, ?_⟩
      · rw [processContract]
        simp only [hout, except_ok_bind, eb, hb, hs1, ed, hd, hs2, hs3, hs4, ee, harr,
          htrue, hcur0, hnone, Option.getD_none]
        simp only [truthy, if_true, if_false, Bool.false_eq_true, ite_false,
          jsSetPathE_obj1_spec, except_ok_bind, jsGetE_obj, jsGet_obj,
          objGet_objSet_same, Option.getD_some]
        rfl
      · rw [show jsGetChain (JsVal.obj (objSet (objSet r4 "errors" (.arr []))
            "errors" (.arr ([] ++ recs)))) ["contracts", f, c, "evm", "bytecode", "object"]
            = jsGetChain (jsGet (.obj (objSet (objSet r4 "errors" (.arr []))
              "errors" (.arr ([] ++ recs)))) "contracts")
              [f, c, "evm", "bytecode", "object"] from rfl]
        rw [jsGet_obj, objGet_objSet_ne _ _ _ _ (by decide),
          objGet_objSet_ne _ _ _ _ (by decide)]
        rw [show (objGet r4 "contracts").getD .undef = jsGet (.obj r4) "contracts"
          from rfl]
        exact readB
      · rw [show jsGetChain (JsVal.obj (objSet (objSet r4 "errors" (.arr []))
            "errors" (.arr ([] ++ recs))))
            ["contracts", f, c, "evm", "deployedBytecode", "object"]
            = jsGetChain (jsGet (.obj (objSet (objSet r4 "errors" (.arr []))
              "errors" (.arr ([] ++ recs)))) "contracts")
              [f, c, "evm", "deployedBytecode", "object"] from rfl]
        rw [jsGet_obj, objGet_objSet_ne _ _ _ _ (by decide),
          objGet_objSet_ne _ _ _ _ (by decide)]
        rw [show (objGet r4 "contracts").getD .undef = jsGet (.obj r4) "contracts"
          from rfl]
        exact readD
      · intro recs' hrecs' e he
        rw [harr] at hrecs'
        injection hrecs' with hrecs2
        subst hrecs2
        simp [jsGet_obj, objGet_objSet_same, jsArrElems, he]
    · have htres : truthy ((objGet rfs "errors").getD .undef) = true := by
        rw [hsome]
        rfl
      refine ⟨.obj (objSet r4 "errors" (.arr (es ++ recs))), ?_, ?_, ?_, ?_⟩
      · rw [processContract]
        simp only [hout, except_ok_bind, eb, hb, hs1, ed, hd, hs2, hs3, hs4, ee, harr,
          htrue, hcur0, hsome, Option.getD_some, htres]
        simp only [truthy, if_true, Bool.not_true, Bool.false_eq_true, ite_false,
          ite_true, except_ok_bind]
        rfl
      · rw [show jsGetChain (JsVal.obj (objSet r4 "errors" (.arr (es ++ recs))))
            ["contracts", f, c, "evm", "bytecode", "object"]
            = jsGetChain (jsGet (.obj (objSet r4 "errors" (.arr (es ++ recs))))
              "contracts") [f, c, "evm", "bytecode", "object"] from rfl]
        rw [jsGet_obj, objGet_objSet_ne _ _ _ _ (by decide)]
        rw [show (objGet r4 "contracts").getD .undef = jsGet (.obj r4) "contracts"
          from rfl]
        exact readB
      · rw [show jsGetChain (JsVal.obj (objSet r4 "errors" (.arr (es ++ recs))))
            ["contracts", f, c, "evm", "deployedBytecode", "object"]
            = jsGetChain (jsGet (.obj (objSet r4 "errors" (.arr (es ++ recs))))
              "contracts") [f, c, "evm", "deployedBytecode", "object"] from rfl]
        rw [jsGet_obj, objGet_objSet_ne _ _ _ _ (by decide)]
        rw [show (objGet r4 "contracts").getD .undef = jsGet (.obj r4) "contracts"
          from rfl]
        exact readD
      · intro recs' hrecs' e he
        rw [harr] at hrecs'
        injection hrecs' with hrecs2
        subst hrecs2
        simp [jsGet_obj, objGet_objSet_same, jsArrElems, he]

/-! ## Hex and prefix lemmas (C8) -/

theorem append_0x_ne_empty (x : String) : ("0x" ++ x) ≠ "" := by
  intro h
  have hd := congrArg String.data h
  rw [String.data_append] at hd
  simp at hd

theorem remove0x_0x_append (x : String) : remove0x ("0x" ++ x) = x := by
  rw [remove0x, if_pos (strStartsWith_prefix_append "0x" x)]
  rw [String.data_append]
  rfl

theorem hexDigitChar_ne_x : ∀ n, n < 16 → ('x' == hexDigitChar n) = false := by decide

theorem strStartsWith_hexEncode_0x (bytes : List Nat) :
    strStartsWith (hexEncode bytes) "0x" = false := by
  cases bytes with
  | nil => rfl
  | cons b rest =>
      show List.isPrefixOf ('0' :: 'x' :: [])
        (hexDigitChar (b % 256 / 16) :: hexDigitChar (b % 16) :: (hexEncode rest).data)
          = false
      have h2 : ('x' == hexDigitChar (b % 16)) = false :=
        hexDigitChar_ne_x _ (Nat.mod_lt _ (by decide))
      simp [List.isPrefixOf, h2]

/-- The success path of `transpileContract` (`compiler.ts` lines
359-403 with both transpilations succeeding): the returned record holds
the transpiled constructor and deployed bytecode as `0x`-prefixed hex
strings from `bufToHexString`. -/
theorem transpileContract_success_eq
    (tr : Transpiler) (cout : JsVal) (f c : String) (so bs ds : String)
    (B D : List Nat)
    (hsize : jsGetPathE cout ["evm", "bytecode", "object"] = .ok (.str so))
    (hb : getBytecode cout false = .str bs) (hbt : bs ≠ "")
    (hd : getBytecode cout true = .str ds) (hdt : ds ≠ "")
    (hB : tr.transpile (hexStrToBufStr bs) (hexStrToBufStr ds)
      (hexStrToBufStr so).length = .succeeded B)
    (hD : tr.transpileRawBytecode (hexStrToBufStr ds) = .succeeded D) :
    transpileContract tr cout f c = .ok (.obj
      [("bytecode", .str (bufToHexString B)),
       ("deployedBytecode", .str (bufToHexString D))]) := by
  simp only [jsGetPathE, except_bind_eq_ok] at hsize
  obtain ⟨evm, hevm, bc, hbc, cv, hcv, hpure⟩ := hsize
  injection hpure with hpure'
  subst hpure'
  have htb : truthy (JsVal.str bs) = true := by
    simp [truthy, hbt]
  have htd : truthy (JsVal.str ds) = true := by
    simp [truthy, hdt]
  have hbb : hexStrToBufE (JsVal.str bs) = .ok (hexStrToBufStr bs) := rfl
  have hdd : hexStrToBufE (JsVal.str ds) = .ok (hexStrToBufStr ds) := rfl
  have hss : hexStrToBufE (JsVal.str so) = .ok (hexStrToBufStr so) := rfl
  have hcore : transpileContractCore tr cout f c = .ok (.obj
      [("bytecode", .str (bufToHexString B)),
       ("deployedBytecode", .str (bufToHexString D))],
      [TranspilerCall.full (hexStrToBufStr bs) (hexStrToBufStr ds)
        (hexStrToBufStr so).length,
       TranspilerCall.raw (hexStrToBufStr ds)]) := by
    rw [transpileContractCore]
    simp only [hevm, except_ok_bind, hbc, hcv, hss, hb, hd, htb, htd, hbb, hdd, hB, hD]
    rfl
  rw [transpileContract, hcore]
  rfl

/-! ## Claim C1 -/

/-- C1: a contract whose transpilation records at least one error gets
no partial bytecode.  The errored `transpileContract` result is the
object holding only the error list — its `bytecode` and
`deployedBytecode` properties are `undefined` — and after `compile`'s
per-contract write-back the contract's `evm.bytecode.object` and
`evm.deployedBytecode.object` fields in the batch hold the empty string
(no transpiled-bytecode fragment). -/
theorem c1_errored_contract_no_partial_bytecode
    (tr : Transpiler) (f c : String)
    (rfs cf ff cjfs efs bfs dfs : List (String × JsVal))
    (errRecs : List JsVal) (res' : JsVal)
    (hres : objGet rfs "contracts" = some (.obj cf))
    (hcf : objGet cf f = some (.obj ff))
    (hff : objGet ff c = some (.obj cjfs))
    (hevm : objGet cjfs "evm" = some (.obj efs))
    (hbc : objGet efs "bytecode" = some (.obj bfs))
    (hdc : objGet efs "deployedBytecode" = some (.obj dfs))
    (herrs : objGet rfs "errors" = none ∨ ∃ es, objGet rfs "errors" = some (.arr es))
    (hout : transpileContract tr (.obj cjfs) f c =
      .ok (.obj [("errors", .arr errRecs)]))
    (hrun : processContract tr (.obj rfs) f c (.obj cjfs) = .ok res') :
    jsGet (.obj [("errors", .arr errRecs)] : JsVal) "bytecode" = .undef ∧
    jsGet (.obj [("errors", .arr errRecs)] : JsVal) "deployedBytecode" = .undef ∧
    jsGetChain res' ["contracts", f, c, "evm", "bytecode", "object"] = .str "" ∧
    jsGetChain res' ["contracts", f, c, "evm", "deployedBytecode", "object"] = .str "" := by
  have hb : remove0xJsE (jsOr
      (jsGet (.obj [("errors", JsVal.arr errRecs)]) "bytecode") (.str "")) = .ok "" := rfl
  have hd : remove0xJsE (jsOr
      (jsGet (.obj [("errors", JsVal.arr errRecs)]) "deployedBytecode") (.str "")) =
        .ok "" := rfl
  have herrv : truthy (jsGet (.obj [("errors", JsVal.arr errRecs)]) "errors") = false ∨
      ∃ recs, jsGet (.obj [("errors", JsVal.arr errRecs)]) "errors" = .arr recs :=
    Or.inr ⟨errRecs, rfl⟩
  obtain ⟨res'', hrun2, hB, hD, _⟩ :=
    processContract_writes tr f c rfs cf ff cjfs efs bfs dfs
      [("errors", .arr errRecs)] "" "" hres hcf hff hevm hbc hdc hout hb hd herrv herrs
  rw [hrun] at hrun2
  injection hrun2 with h
  subst h
  exact ⟨rfl, rfl, hB, hD⟩

/-- Witness for C1 at a concrete one-contract batch whose transpilation
fails. -/
theorem c1_errored_contract_no_partial_bytecode_witness :
    transpileContract trCtorFail sampleContract "f.sol" "C" =
      .ok (.obj [("errors",
        .arr [solcErrorRecord "f.sol" "C" ⟨2, "disallowed opcode"⟩ false])]) ∧
    processContract trCtorFail
        (.obj [("contracts", .obj [("f.sol", .obj [("C", sampleContract)])])])
        "f.sol" "C" sampleContract =
      .ok (.obj [("contracts", .obj [("f.sol", .obj [("C", .obj [("evm", .obj [
          ("bytecode", .obj [("object", .str "")]),
          ("deployedBytecode", .obj [("object", .str "")])])])])]),
        ("errors", .arr [solcErrorRecord "f.sol" "C" ⟨2, "disallowed opcode"⟩ false])]) ∧
    jsGetChain (.obj [("contracts", .obj [("f.sol", .obj [("C", .obj [("evm", .obj [
          ("bytecode", .obj [("object", .str "")]),
          ("deployedBytecode", .obj [("object", .str "")])])])])]),
        ("errors", .arr [solcErrorRecord "f.sol" "C" ⟨2, "disallowed opcode"⟩ false])])
      ["contracts", "f.sol", "C", "evm", "bytecode", "object"] = .str "" ∧
    jsGetChain (.obj [("contracts", .obj [("f.sol", .obj [("C", .obj [("evm", .obj [
          ("bytecode", .obj [("object", .str "")]),
          ("deployedBytecode", .obj [("object", .str "")])])])])]),
        ("errors", .arr [solcErrorRecord "f.sol" "C" ⟨2, "disallowed opcode"⟩ false])])
      ["contracts", "f.sol", "C", "evm", "deployedBytecode", "object"] = .str "" :=
  ⟨rfl, rfl,
    (c1_errored_contract_no_partial_bytecode trCtorFail "f.sol" "C"
      [("contracts", .obj [("f.sol", .obj [("C", sampleContract)])])]
      [("f.sol", .obj [("C", sampleContract)])] [("C", sampleContract)]
      [("evm", .obj [("bytecode", .obj [("object", .str "6001600201")]),
        ("deployedBytecode", .obj [("object", .str "600360040a")])])]
      [("bytecode", .obj [("object", .str "6001600201")]),
        ("deployedBytecode", .obj [("object", .str "600360040a")])]
      [("object", .str "6001600201")] [("object", .str "600360040a")]
      [solcErrorRecord "f.sol" "C" ⟨2, "disallowed opcode"⟩ false] _
      rfl rfl rfl rfl rfl rfl (Or.inl rfl) rfl rfl).2.2.1,
    (c1_errored_contract_no_partial_bytecode trCtorFail "f.sol" "C"
      [("contracts", .obj [("f.sol", .obj [("C", sampleContract)])])]
      [("f.sol", .obj [("C", sampleContract)])] [("C", sampleContract)]
      [("evm", .obj [("bytecode", .obj [("object", .str "6001600201")]),
        ("deployedBytecode", .obj [("object", .str "600360040a")])])]
      [("bytecode", .obj [("object", .str "6001600201")]),
        ("deployedBytecode", .obj [("object", .str "600360040a")])]
      [("object", .str "6001600201")] [("object", .str "600360040a")]
      [solcErrorRecord "f.sol" "C" ⟨2, "disallowed opcode"⟩ false] _
      rfl rfl rfl rfl rfl rfl (Or.inl rfl) rfl rfl).2.2.2⟩

/-! ## Claim C8 -/

/-- C8: for a contract whose transpilation succeeds (both constructor
and deployed bytecode present and successfully transpiled), the
`transpileContract` record carries the transpiled bytecode as
`0x`-prefixed `bufToHexString` output, and `compile`'s write-back
replaces `evm.bytecode.object` and `evm.deployedBytecode.object` with
that bytecode hex-encoded *without* a leading `0x` prefix (the last two
conjuncts: the written strings never start with `0x`). -/
theorem c8_success_hex_no_0x
    (tr : Transpiler) (f c : String)
    (rfs cf ff cjfs efs bfs dfs : List (String × JsVal))
    (so bs ds : String) (B D : List Nat) (res' : JsVal)
    (hres : objGet rfs "contracts" = some (.obj cf))
    (hcf : objGet cf f = some (.obj ff))
    (hff : objGet ff c = some (.obj cjfs))
    (hevm : objGet cjfs "evm" = some (.obj efs))
    (hbc : objGet efs "bytecode" = some (.obj bfs))
    (hdc : objGet efs "deployedBytecode" = some (.obj dfs))
    (herrs : objGet rfs "errors" = none ∨ ∃ es, objGet rfs "errors" = some (.arr es))
    (hsize : jsGetPathE (.obj cjfs) ["evm", "bytecode", "object"] = .ok (.str so))
    (hgb : getBytecode (.obj cjfs) false = .str bs) (hbt : bs ≠ "")
    (hgd : getBytecode (.obj cjfs) true = .str ds) (hdt : ds ≠ "")
    (hB : tr.transpile (hexStrToBufStr bs) (hexStrToBufStr ds)
      (hexStrToBufStr so).length = .succeeded B)
    (hD : tr.transpileRawBytecode (hexStrToBufStr ds) = .succeeded D)
    (hrun : processContract tr (.obj rfs) f c (.obj cjfs) = .ok res') :
    transpileContract tr (.obj cjfs) f c = .ok (.obj
      [("bytecode", .str (bufToHexString B)),
       ("deployedBytecode", .str (bufToHexString D))]) ∧
    jsGetChain res' ["contracts", f, c, "evm", "bytecode", "object"] =
      .str (hexEncode B) ∧
    jsGetChain res' ["contracts", f, c, "evm", "deployedBytecode", "object"] =
      .str (hexEncode D) ∧
    strStartsWith (hexEncode B) "0x" = false ∧
    strStartsWith (hexEncode D) "0x" = false := by
  have hout := transpileContract_success_eq tr (.obj cjfs) f c so bs ds B D
    hsize hgb hbt hgd hdt hB hD
  have hb : remove0xJsE (jsOr (jsGet (.obj
      [("bytecode", JsVal.str (bufToHexString B)),
       ("deployedBytecode", JsVal.str (bufToHexString D))]) "bytecode") (.str "")) =
      .ok (hexEncode B) := by
    have ht : truthy (JsVal.str (bufToHexString B)) = true := by
      simp [truthy, bufToHexString, append_0x_ne_empty (hexEncode B)]
    have hg : jsGet (JsVal.obj
        [("bytecode", JsVal.str (bufToHexString B)),
         ("deployedBytecode", JsVal.str (bufToHexString D))]) "bytecode" =
        .str (bufToHexString B) := rfl
    rw [hg, jsOr, if_pos ht, remove0xJsE]
    rw [show bufToHexString B = "0x" ++ hexEncode B from rfl, remove0x_0x_append]
  have hd : remove0xJsE (jsOr (jsGet (.obj
      [("bytecode", JsVal.str (bufToHexString B)),
       ("deployedBytecode", JsVal.str (bufToHexString D))]) "deployedBytecode")
      (.str "")) = .ok (hexEncode D) := by
    have ht : truthy (JsVal.str (bufToHexString D)) = true := by
      simp [truthy, bufToHexString, append_0x_ne_empty (hexEncode D)]
    have hg : jsGet (JsVal.obj
        [("bytecode", JsVal.str (bufToHexString B)),
         ("deployedBytecode", JsVal.str (bufToHexString D))]) "deployedBytecode" =
        .str (bufToHexString D) := rfl
    rw [hg, jsOr, if_pos ht, remove0xJsE]
    rw [show bufToHexString D = "0x" ++ hexEncode D from rfl, remove0x_0x_append]
  have herrv : truthy (jsGet (.obj
      [("bytecode", JsVal.str (bufToHexString B)),
       ("deployedBytecode", JsVal.str (bufToHexString D))]) "errors") = false ∨
      ∃ recs, jsGet (.obj
      [("bytecode", JsVal.str (bufToHexString B)),
       ("deployedBytecode", JsVal.str (bufToHexString D))]) "errors" = .arr recs :=
    Or.inl rfl
  obtain ⟨res'', hrun2, hBread, hDread, _⟩ :=
    processContract_writes tr f c rfs cf ff cjfs efs bfs dfs
      [("bytecode", .str (bufToHexString B)),
       ("deployedBytecode", .str (bufToHexString D))]
      (hexEncode B) (hexEncode D) hres hcf hff hevm hbc hdc hout hb hd herrv herrs
  rw [hrun] at hrun2
  injection hrun2 with h
  subst h
  exact ⟨hout, hBread, hDread, strStartsWith_hexEncode_0x B, strStartsWith_hexEncode_0x D⟩

/-- Witness for C8 at a concrete one-contract batch whose transpilation
succeeds. -/
theorem c8_success_hex_no_0x_witness :
    hexEncode (hexStrToBufStr "6001600201" ++ [255]) = "6001600201ff" ∧
    processContract trAllOk
        (.obj [("contracts", .obj [("f.sol", .obj [("C", sampleContract)])])])
        "f.sol" "C" sampleContract =
      .ok (.obj [("contracts", .obj [("f.sol", .obj [("C", .obj [("evm", .obj [
          ("bytecode", .obj [("object", .str "6001600201ff")]),
          ("deployedBytecode", .obj [("object", .str "600360040afe")])])])])])]) ∧
    jsGetChain (.obj [("contracts", .obj [("f.sol", .obj [("C", .obj [("evm", .obj [
          ("bytecode", .obj [("object", .str "6001600201ff")]),
          ("deployedBytecode", .obj [("object", .str "600360040afe")])])])])])])
      ["contracts", "f.sol", "C", "evm", "bytecode", "object"] =
        .str (hexEncode (hexStrToBufStr "6001600201" ++ [255])) ∧
    strStartsWith (hexEncode (hexStrToBufStr "6001600201" ++ [255])) "0x" = false :=
  ⟨rfl, rfl,
    (c8_success_hex_no_0x trAllOk "f.sol" "C"
      [("contracts", .obj [("f.sol", .obj [("C", sampleContract)])])]
      [("f.sol", .obj [("C", sampleContract)])] [("C", sampleContract)]
      [("evm", .obj [("bytecode", .obj [("object", .str "6001600201")]),
        ("deployedBytecode", .obj [("object", .str "600360040a")])])]
      [("bytecode", .obj [("object", .str "6001600201")]),
        ("deployedBytecode", .obj [("object", .str "600360040a")])]
      [("object", .str "6001600201")] [("object", .str "600360040a")]
      "6001600201" "6001600201" "600360040a"
      (hexStrToBufStr "6001600201" ++ [255]) (hexStrToBufStr "600360040a" ++ [254]) _
      rfl rfl rfl rfl rfl rfl (Or.inl rfl) rfl rfl (by decide) rfl (by decide)
      rfl rfl rfl).2.1,
    (c8_success_hex_no_0x trAllOk "f.sol" "C"
      [("contracts", .obj [("f.sol", .obj [("C", sampleContract)])])]
      [("f.sol", .obj [("C", sampleContract)])] [("C", sampleContract)]
      [("evm", .obj [("bytecode", .obj [("object", .str "6001600201")]),
        ("deployedBytecode", .obj [("object", .str "600360040a")])])]
      [("bytecode", .obj [("object", .str "6001600201")]),
        ("deployedBytecode", .obj [("object", .str "600360040a")])]
      [("object", .str "6001600201")] [("object", .str "600360040a")]
      "6001600201" "6001600201" "600360040a"
      (hexStrToBufStr "6001600201" ++ [255]) (hexStrToBufStr "600360040a" ++ [254]) _
      rfl rfl rfl rfl rfl rfl (Or.inl rfl) rfl rfl (by decide) rfl (by decide)
      rfl rfl rfl).2.2.2.1⟩

/-! ## Error-accumulation lemmas (C2) -/

theorem jsGetE_ok_val (v : JsVal) (k : String) (w : JsVal)
    (h : jsGetE v k = .ok w) : w = jsGet v k := by
  cases v <;> simp [jsGetE] at h <;> first | exact h.symm | cases h

theorem jsGet_errors_arr (v : JsVal) (a : List JsVal)
    (h : jsGet v "errors" = .arr a) :
    ∃ fs, v = .obj fs ∧ objGet fs "errors" = some (.arr a) := by
  cases v with
  | obj fs =>
      refine ⟨fs, rfl, ?_⟩
      rw [jsGet_obj] at h
      cases hg : objGet fs "errors" with
      | none => rw [hg] at h; cases h
      | some w => rw [hg] at h; simp at h; rw [h]
  | arr xs => rw [show jsGet (.arr xs) "errors" = .undef from rfl] at h; cases h
  | str s => rw [show jsGet (.str s) "errors" = .undef from rfl] at h; cases h
  | null => cases h
  | undef => cases h
  | bool b => cases h
  | num n => cases h

theorem jsArrElems_nil_of_not_truthy (v : JsVal) (h : truthy v = false) :
    jsArrElems v = [] := by
  cases v <;> simp [jsArrElems, truthy] at *

theorem jsGet_jsSetProp_nonindex (v : JsVal) (k k' : String) (x : JsVal)
    (hne : k' ≠ k) (hni : toIndex? k' = none) (hnl : k' ≠ "length") :
    jsGet (jsSetProp v k x) k' = jsGet v k' := by
  cases v with
  | obj fs => simp [jsSetProp, jsGet_obj, objGet_objSet_ne _ _ _ _ hne]
  | arr xs =>
      cases hti : toIndex? k with
      | none => simp [jsSetProp, hti]
      | some i => simp [jsSetProp, hti, jsGet, hnl, hni]
  | null => rfl
  | undef => rfl
  | bool b => rfl
  | num n => rfl
  | str s => simp [jsSetProp]

theorem jsGet_setPathE_top (v v' x : JsVal) (k k' : String) (ps : List String)
    (h : jsSetPathE v (k :: ps) x = .ok v') (hne : k' ≠ k)
    (hni : toIndex? k' = none) (hnl : k' ≠ "length") :
    jsGet v' k' = jsGet v k' := by
  cases ps with
  | nil =>
      cases v <;> simp [jsSetPathE] at h <;>
        first
        | (rw [← h]; exact jsGet_jsSetProp_nonindex _ _ _ _ hne hni hnl)
        | cases h
  | cons p rest =>
      rw [jsSetPathE] at h
      simp only [except_bind_eq_ok] at h
      obtain ⟨child, hc, child', hc', hv'⟩ := h
      injection hv' with hv''
      rw [← hv'']
      exact jsGet_jsSetProp_nonindex _ _ _ _ hne hni hnl

/-- Errors already present in the batch survive the processing of any
further contract: `processContract` only ever appends to the `errors`
array. -/
theorem processContract_errors_mono
    (tr : Transpiler) (res : JsVal) (f c : String) (cj res' : JsVal)
    (h : processContract tr res f c cj = .ok res') :
    ∀ e, e ∈ jsArrElems (jsGet res "errors") → e ∈ jsArrElems (jsGet res' "errors") := by
  rw [processContract] at h
  simp only [except_bind_eq_ok] at h
  obtain ⟨out, hout, b1, hb1, s1, hs1, r1, hr1, d1, hd1, t1, ht1, r2, hr2,
    b2, hb2, s2, hs2, r3, hr3, d2, hd2, t2, ht2, r4, hr4, ev, hev, h⟩ := h
  have e1 : jsGet r1 "errors" = jsGet res "errors" :=
    jsGet_setPathE_top _ _ _ _ _ _ hr1 (by decide) (by decide) (by decide)
  have e2 : jsGet r2 "errors" = jsGet r1 "errors" :=
    jsGet_setPathE_top _ _ _ _ _ _ hr2 (by decide) (by decide) (by decide)
  have e3 : jsGet r3 "errors" = jsGet r2 "errors" :=
    jsGet_setPathE_top _ _ _ _ _ _ hr3 (by decide) (by decide) (by decide)
  have e4 : jsGet r4 "errors" = jsGet res "errors" := by
    rw [jsGet_setPathE_top _ _ _ _ _ _ hr4 (by decide) (by decide) (by decide),
      e3, e2, e1]
  by_cases hte : truthy ev = true
  · rw [if_pos hte] at h
    rw [except_bind_eq_ok] at h
    obtain ⟨cur0, hcur0, h⟩ := h
    have hcur0v : cur0 = jsGet r4 "errors" := jsGetE_ok_val _ _ _ hcur0
    by_cases htc : truthy cur0 = true
    · rw [if_neg (by simp [htc]), except_ok_bind, except_bind_eq_ok] at h
      obtain ⟨cur, hcur, h⟩ := h
      have hcurv : cur = jsGet r4 "errors" := jsGetE_ok_val _ _ _ hcur
      intro e he
      rw [← e4, ← hcurv] at he
      cases cur with
      | arr a =>
          obtain ⟨g, hg, hgo⟩ := jsGet_errors_arr r4 a hcurv.symm
          subst hg
          cases ev with
          | arr evs =>
              simp only at h
              rw [jsSetPathE_obj1_spec] at h
              injection h with h'
              rw [← h']
              simp only [jsGet_obj, objGet_objSet_same, Option.getD_some, jsArrElems]
              exact List.mem_append_left _ (by simpa [jsArrElems] using he)
          | str sv =>
              simp only at h
              rw [jsSetPathE_obj1_spec] at h
              injection h with h'
              rw [← h']
              simp only [jsGet_obj, objGet_objSet_same, Option.getD_some, jsArrElems]
              exact List.mem_append_left _ (by simpa [jsArrElems] using he)
          | null => simp at h
          | undef => simp at h
          | bool b => simp at h
          | num n => simp at h
          | obj fs => simp at h
      | null => simp [jsArrElems] at he
      | undef => simp [jsArrElems] at he
      | bool b => simp [jsArrElems] at he
      | num n => simp [jsArrElems] at he
      | str s => simp [jsArrElems] at he
      | obj fs => simp [jsArrElems] at he
    · intro e he
      have htf : truthy cur0 = false := by
        revert htc
        cases truthy cur0 <;> simp
      rw [← e4, ← hcur0v, jsArrElems_nil_of_not_truthy cur0 htf] at he
      exact absurd he (List.not_mem_nil e)
  · rw [if_neg hte] at h
    injection h with h'
    subst h'
    intro e he
    rw [e4]
    exact he

/-- A contract whose `transpileContract` result carries an `errors`
array gets every one of those records appended to the batch `errors`
array by `processContract`. -/
theorem processContract_errors_pushed
    (tr : Transpiler) (res : JsVal) (f c : String) (cj res' out : JsVal)
    (recs : List JsVal)
    (h : processContract tr res f c cj = .ok res')
    (hte : transpileContract tr cj f c = .ok out)
    (harr : jsGet out "errors" = .arr recs) :
    ∀ e, e ∈ recs → e ∈ jsArrElems (jsGet res' "errors") := by
  rw [processContract] at h
  simp only [except_bind_eq_ok] at h
  obtain ⟨out0, hout, b1, hb1, s1, hs1, r1, hr1, d1, hd1, t1, ht1, r2, hr2,
    b2, hb2, s2, hs2, r3, hr3, d2, hd2, t2, ht2, r4, hr4, ev, hev, h⟩ := h
  rw [hte] at hout
  injection hout with hout'
  subst hout'
  have hevv : ev = .arr recs := by
    rw [jsGetE_ok_val _ _ _ hev, harr]
  subst hevv
  rw [if_pos (by rfl : truthy (JsVal.arr recs) = true)] at h
  rw [except_bind_eq_ok] at h
  obtain ⟨cur0, hcur0, h⟩ := h
  have hcur0v : cur0 = jsGet r4 "errors" := jsGetE_ok_val _ _ _ hcur0
  by_cases htc : truthy cur0 = true
  · rw [if_neg (by simp [htc]), except_ok_bind, except_bind_eq_ok] at h
    obtain ⟨cur, hcur, h⟩ := h
    have hcurv : cur = jsGet r4 "errors" := jsGetE_ok_val _ _ _ hcur
    intro e he
    cases cur with
    | arr a =>
        obtain ⟨g, hg, hgo⟩ := jsGet_errors_arr r4 a hcurv.symm
        subst hg
        simp only at h
        rw [jsSetPathE_obj1_spec] at h
        injection h with h'
        rw [← h']
        simp only [jsGet_obj, objGet_objSet_same, Option.getD_some, jsArrElems]
        exact List.mem_append_right _ he
    | null => simp at h
    | undef => simp at h
    | bool b => simp at h
    | num n => simp at h
    | str s => simp at h
    | obj fs => simp at h
  · have htf : truthy cur0 = false := by
      revert htc
      cases truthy cur0 <;> simp
    rw [if_pos (by simp [htf])] at h
    intro e he
    cases hr4v : r4 with
    | null =>
        rw [hr4v] at h
        rw [show jsSetPathE JsVal.null ["errors"] (.arr []) =
          .error "TypeError: cannot set property errors of null" from rfl,
          except_error_bind] at h
        cases h
    | undef =>
        rw [hr4v] at h
        rw [show jsSetPathE JsVal.undef ["errors"] (.arr []) =
          .error "TypeError: cannot set property errors of undefined" from rfl,
          except_error_bind] at h
        cases h
    | obj g =>
        rw [hr4v, jsSetPathE_obj1_spec, except_ok_bind, except_bind_eq_ok] at h
        obtain ⟨cur, hcur, h⟩ := h
        have hcurv : cur = .arr [] := by
          rw [jsGetE_ok_val _ _ _ hcur]
          simp [jsGet_obj, objGet_objSet_same]
        subst hcurv
        simp only at h
        rw [jsSetPathE_obj1_spec] at h
        injection h with h'
        rw [← h']
        simp only [jsGet_obj, objGet_objSet_same, Option.getD_some, jsArrElems]
        simpa using he
    | arr xs =>
        rw [hr4v] at h
        rw [show jsSetPathE (JsVal.arr xs) ["errors"] (.arr []) =
          .ok (jsSetProp (.arr xs) "errors" (.arr [])) from rfl,
          except_ok_bind, except_bind_eq_ok] at h
        obtain ⟨cur, hcur, h⟩ := h
        have hcurv : cur = .undef := by
          rw [jsGetE_ok_val _ _ _ hcur]
          rfl
        subst hcurv
        simp at h
    | bool bv =>
        rw [hr4v] at h
        rw [show jsSetPathE (JsVal.bool bv) ["errors"] (.arr []) =
          .ok (jsSetProp (.bool bv) "errors" (.arr [])) from rfl,
          except_ok_bind, except_bind_eq_ok] at h
        obtain ⟨cur, hcur, h⟩ := h
        have hcurv : cur = .undef := by
          rw [jsGetE_ok_val _ _ _ hcur]
          rfl
        subst hcurv
        simp at h
    | num nv =>
        rw [hr4v] at h
        rw [show jsSetPathE (JsVal.num nv) ["errors"] (.arr []) =
          .ok (jsSetProp (.num nv) "errors" (.arr [])) from rfl,
          except_ok_bind, except_bind_eq_ok] at h
        obtain ⟨cur, hcur, h⟩ := h
        have hcurv : cur = .undef := by
          rw [jsGetE_ok_val _ _ _ hcur]
          rfl
        subst hcurv
        simp at h
    | str sv =>
        rw [hr4v] at h
        rw [show jsSetPathE (JsVal.str sv) ["errors"] (.arr []) =
          .ok (jsSetProp (.str sv) "errors" (.arr [])) from rfl,
          except_ok_bind, except_bind_eq_ok] at h
        obtain ⟨cur, hcur, h⟩ := h
        have hcurv : cur = .undef := by
          rw [jsGetE_ok_val _ _ _ hcur]
          rfl
        subst hcurv
        simp at h

/-- Error monotonicity over the inner contract loop. -/
theorem processContractList_errors_mono (tr : Transpiler) (f : String) :
    ∀ (ents : List (String × JsVal)) (res res' : JsVal),
      processContractList tr f res ents = .ok res' →
      ∀ e, e ∈ jsArrElems (jsGet res "errors") → e ∈ jsArrElems (jsGet res' "errors") := by
  intro ents
  induction ents with
  | nil =>
      intro res res' h e he
      rw [processContractList] at h
      injection h with h'
      rw [← h']
      exact he
  | cons p rest ih =>
      intro res res' h e he
      obtain ⟨c0, cj0⟩ := p
      rw [processContractList] at h
      rw [except_bind_eq_ok] at h
      obtain ⟨r1, hr1, h⟩ := h
      exact ih r1 res' h e (processContract_errors_mono tr res f c0 cj0 r1 hr1 e he)

/-- Every contract of the inner loop whose transpilation produced an
error array contributes all its records to the final error array. -/
theorem processContractList_errors_pushed (tr : Transpiler) (f : String) :
    ∀ (ents : List (String × JsVal)) (res res' : JsVal),
      processContractList tr f res ents = .ok res' →
      ∀ c cj, (c, cj) ∈ ents →
      ∀ out recs, transpileContract tr cj f c = .ok out →
        jsGet out "errors" = .arr recs →
      ∀ e, e ∈ recs → e ∈ jsArrElems (jsGet res' "errors") := by
  intro ents
  induction ents with
  | nil =>
      intro res res' h c cj hc
      exact absurd hc (List.not_mem_nil _)
  | cons p rest ih =>
      intro res res' h c cj hc out recs hout harr e he
      obtain ⟨c0, cj0⟩ := p
      rw [processContractList] at h
      rw [except_bind_eq_ok] at h
      obtain ⟨r1, hr1, h⟩ := h
      rcases List.mem_cons.mp hc with hhead | htail
      · injection hhead with hc1 hc2
        subst hc1
        subst hc2
        exact processContractList_errors_mono tr f rest r1 res' h e
          (processContract_errors_pushed tr res f c cj r1 out recs hr1 hout harr e he)
      · exact ih r1 res' h c cj htail out recs hout harr e he


/-- Error monotonicity over the outer file loop. -/
theorem processFileList_errors_mono (tr : Transpiler) :
    ∀ (fents : List (String × JsVal)) (res res' : JsVal),
      processFileList tr res fents = .ok res' →
      ∀ e, e ∈ jsArrElems (jsGet res "errors") → e ∈ jsArrElems (jsGet res' "errors") := by
  intro fents
  induction fents with
  | nil =>
      intro res res' h e he
      rw [processFileList] at h
      injection h with h'
      rw [← h']
      exact he
  | cons p rest ih =>
      intro res res' h e he
      obtain ⟨f0, fj0⟩ := p
      rw [processFileList] at h
      rw [except_bind_eq_ok] at h
      obtain ⟨cents0, hcents0, h⟩ := h
      rw [except_bind_eq_ok] at h
      obtain ⟨r1, hr1, h⟩ := h
      exact ih r1 res' h e
        (processContractList_errors_mono tr f0 cents0 res r1 hr1 e he)

/-! ## Claim C2 -/

/-- C2: over a whole batch (the per-file loop of `compile`), a
transpilation failure of one contract does not abort the processing of
the remaining contracts — the loop continues and completes with `res'`
— and every contract whose transpilation produced error records
contributes all of them to the batch-level `errors` array of the
returned output: no rejected contract is dropped. -/
theorem c2_batch_error_accumulation
    (tr : Transpiler) (fents : List (String × JsVal)) (res res' : JsVal)
    (h : processFileList tr res fents = .ok res')
    (f : String) (fileJson : JsVal) (hf : (f, fileJson) ∈ fents)
    (cents : List (String × JsVal)) (hcents : jsEntriesE fileJson = .ok cents)
    (c : String) (cj : JsVal) (hc : (c, cj) ∈ cents)
    (out : JsVal) (recs : List JsVal)
    (hout : transpileContract tr cj f c = .ok out)
    (harr : jsGet out "errors" = .arr recs) :
    ∀ e, e ∈ recs → e ∈ jsArrElems (jsGet res' "errors") := by
  induction fents generalizing res with
  | nil => exact absurd hf (List.not_mem_nil _)
  | cons p rest ih =>
      obtain ⟨f0, fj0⟩ := p
      rw [processFileList] at h
      rw [except_bind_eq_ok] at h
      obtain ⟨cents0, hcents0, h⟩ := h
      rw [except_bind_eq_ok] at h
      obtain ⟨r1, hr1, h⟩ := h
      rcases List.mem_cons.mp hf with hhead | htail
      · injection hhead with hf1 hf2
        subst hf1
        subst hf2
        rw [hcents] at hcents0
        injection hcents0 with hcents1
        subst hcents1
        intro e he
        exact processFileList_errors_mono tr rest r1 res' h e
          (processContractList_errors_pushed tr _ _ res r1 hr1 c cj hc
            out recs hout harr e he)
      · exact ih r1 h htail

/-- Witness for C2: a batch of two contracts that both fail to
transpile; the first failure does not abort the second contract, and
both contracts' error records appear in the final batch error array. -/
theorem c2_batch_error_accumulation_witness :
    processFileList trCtorFail sampleBatch
      [("f.sol", .obj [("C", sampleContract), ("D", sampleContract2)])] =
      .ok (.obj [("contracts", .obj [("f.sol", .obj [("C", .obj [("evm", .obj [("bytecode", .obj [("object", .str "")]), ("deployedBytecode", .obj [("object", .str "")])])]), ("D", .obj [("evm", .obj [("bytecode", .obj [("object", .str "")]), ("deployedBytecode", .obj [("object", .str "")])])])])]), ("errors", .arr [solcErrorRecord "f.sol" "C" ⟨2, "disallowed opcode"⟩ false, solcErrorRecord "f.sol" "D" ⟨2, "disallowed opcode"⟩ false])] : JsVal) ∧
    solcErrorRecord "f.sol" "C" ⟨2, "disallowed opcode"⟩ false ∈
      jsArrElems (jsGet (.obj [("contracts", .obj [("f.sol", .obj [("C", .obj [("evm", .obj [("bytecode", .obj [("object", .str "")]), ("deployedBytecode", .obj [("object", .str "")])])]), ("D", .obj [("evm", .obj [("bytecode", .obj [("object", .str "")]), ("deployedBytecode", .obj [("object", .str "")])])])])]), ("errors", .arr [solcErrorRecord "f.sol" "C" ⟨2, "disallowed opcode"⟩ false, solcErrorRecord "f.sol" "D" ⟨2, "disallowed opcode"⟩ false])] : JsVal) "errors") ∧
    solcErrorRecord "f.sol" "D" ⟨2, "disallowed opcode"⟩ false ∈
      jsArrElems (jsGet (.obj [("contracts", .obj [("f.sol", .obj [("C", .obj [("evm", .obj [("bytecode", .obj [("object", .str "")]), ("deployedBytecode", .obj [("object", .str "")])])]), ("D", .obj [("evm", .obj [("bytecode", .obj [("object", .str "")]), ("deployedBytecode", .obj [("object", .str "")])])])])]), ("errors", .arr [solcErrorRecord "f.sol" "C" ⟨2, "disallowed opcode"⟩ false, solcErrorRecord "f.sol" "D" ⟨2, "disallowed opcode"⟩ false])] : JsVal) "errors") :=
  ⟨rfl,
   c2_batch_error_accumulation trCtorFail
     [("f.sol", .obj [("C", sampleContract), ("D", sampleContract2)])]
     sampleBatch (.obj [("contracts", .obj [("f.sol", .obj [("C", .obj [("evm", .obj [("bytecode", .obj [("object", .str "")]), ("deployedBytecode", .obj [("object", .str "")])])]), ("D", .obj [("evm", .obj [("bytecode", .obj [("object", .str "")]), ("deployedBytecode", .obj [("object", .str "")])])])])]), ("errors", .arr [solcErrorRecord "f.sol" "C" ⟨2, "disallowed opcode"⟩ false, solcErrorRecord "f.sol" "D" ⟨2, "disallowed opcode"⟩ false])] : JsVal) rfl
     "f.sol" (.obj [("C", sampleContract), ("D", sampleContract2)])
     (List.mem_cons_self _ _)
     [("C", sampleContract), ("D", sampleContract2)] rfl
     "C" sampleContract (List.mem_cons_self _ _)
     (.obj [("errors", .arr [solcErrorRecord "f.sol" "C" ⟨2, "disallowed opcode"⟩ false])])
     [solcErrorRecord "f.sol" "C" ⟨2, "disallowed opcode"⟩ false] rfl rfl
     (solcErrorRecord "f.sol" "C" ⟨2, "disallowed opcode"⟩ false)
     (List.mem_cons_self _ _),
   c2_batch_error_accumulation trCtorFail
     [("f.sol", .obj [("C", sampleContract), ("D", sampleContract2)])]
     sampleBatch (.obj [("contracts", .obj [("f.sol", .obj [("C", .obj [("evm", .obj [("bytecode", .obj [("object", .str "")]), ("deployedBytecode", .obj [("object", .str "")])])]), ("D", .obj [("evm", .obj [("bytecode", .obj [("object", .str "")]), ("deployedBytecode", .obj [("object", .str "")])])])])]), ("errors", .arr [solcErrorRecord "f.sol" "C" ⟨2, "disallowed opcode"⟩ false, solcErrorRecord "f.sol" "D" ⟨2, "disallowed opcode"⟩ false])] : JsVal) rfl
     "f.sol" (.obj [("C", sampleContract), ("D", sampleContract2)])
     (List.mem_cons_self _ _)
     [("C", sampleContract), ("D", sampleContract2)] rfl
     "D" sampleContract2 (List.mem_cons_of_mem _ (List.mem_cons_self _ _))
     (.obj [("errors", .arr [solcErrorRecord "f.sol" "D" ⟨2, "disallowed opcode"⟩ false])])
     [solcErrorRecord "f.sol" "D" ⟨2, "disallowed opcode"⟩ false] rfl rfl
     (solcErrorRecord "f.sol" "D" ⟨2, "disallowed opcode"⟩ false)
     (List.mem_cons_self _ _)⟩

/-! ## Deletion machinery for formatOutput (C10) -/

theorem objGet_mem (fs : List (String × JsVal)) (k : String) (v : JsVal)
    (h : objGet fs k = some v) : (k, v) ∈ fs := by
  induction fs with
  | nil => cases h
  | cons p rest ih =>
      obtain ⟨k', v'⟩ := p
      by_cases hk : k' = k
      · subst hk
        rw [objGet, if_pos rfl] at h
        injection h with h'
        subst h'
        exact List.mem_cons_self _ _
      · rw [objGet, if_neg hk] at h
        exact List.mem_cons_of_mem _ (ih h)

theorem mem_objSet (fs : List (String × JsVal)) (k : String) (v : JsVal) :
    ∀ p ∈ objSet fs k v, p ∈ fs ∨ p = (k, v) := by
  induction fs with
  | nil =>
      intro p hp
      rw [objSet] at hp
      rcases List.mem_singleton.mp hp with h
      exact Or.inr h
  | cons q rest ih =>
      intro p hp
      obtain ⟨k', v'⟩ := q
      by_cases hk : k' = k
      · subst hk
        rw [objSet, if_pos rfl] at hp
        rcases List.mem_cons.mp hp with h | h
        · exact Or.inr (by rw [h])
        · exact Or.inl (List.mem_cons_of_mem _ h)
      · rw [objSet, if_neg hk] at hp
        rcases List.mem_cons.mp hp with h | h
        · exact Or.inl (by rw [h]; exact List.mem_cons_self _ _)
        · rcases ih p h with h2 | h2
          · exact Or.inl (List.mem_cons_of_mem _ h2)
          · exact Or.inr h2

theorem jsGet_nonindex_obj (v : JsVal) (k : String) (fsv : List (String × JsVal))
    (hni : toIndex? k = none) (hnl : k ≠ "length")
    (h : jsGet v k = .obj fsv) :
    ∃ fs, v = .obj fs ∧ objGet fs k = some (.obj fsv) := by
  cases v with
  | obj fs =>
      refine ⟨fs, rfl, ?_⟩
      rw [jsGet_obj] at h
      cases hg : objGet fs k with
      | none => rw [hg] at h; cases h
      | some w => rw [hg] at h; simp at h; rw [h]
  | arr xs => simp [jsGet, hni, hnl] at h
  | str s => simp [jsGet, hni, hnl] at h
  | null => cases h
  | undef => cases h
  | bool b => cases h
  | num n => cases h

/-- Writing through a four-key path of objects, with the same
observations as `jsSetPathE_obj6_spec`. -/
theorem jsSetPathE_obj4_spec
    (r c1 c2 c3 : List (String × JsVal)) (k1 k2 k3 k4 : String) (v : JsVal)
    (h1 : objGet r k1 = some (.obj c1)) (h2 : objGet c1 k2 = some (.obj c2))
    (h3 : objGet c2 k3 = some (.obj c3)) :
    jsSetPathE (.obj r) [k1, k2, k3, k4] v =
      .ok (.obj (objSet r k1 (.obj (objSet c1 k2 (.obj (objSet c2 k3
        (.obj (objSet c3 k4 v)))))))) := by
  simp only [jsSetPathE, jsGetE_obj, jsGet_obj, h1, h2, h3, Option.getD_some,
    except_ok_bind, jsSetProp]

/-- One `delete transpiledOutput.contracts[f][c].evm.legacyAssembly`
statement: under a well-formed batch it succeeds only by removing the
`legacyAssembly` key of (or leaving keyless) the addressed contract's
`evm`, preserves the object structure, preserves every already-clean
contract, and leaves the addressed contract clean. -/
theorem c10_delete_spec
    (root cf : List (String × JsVal)) (fn cn : String) (acc' : JsVal)
    (hc : objGet root "contracts" = some (.obj cf))
    (hfo : ∀ p ∈ cf, ∃ ff, p.2 = JsVal.obj ff)
    (h : jsDeleteAtE (.obj root) ["contracts", fn, cn, "evm"] "legacyAssembly" =
      .ok acc') :
    ∃ root' cf',
      acc' = .obj root' ∧ objGet root' "contracts" = some (.obj cf') ∧
      (∀ p ∈ cf', ∃ ff, p.2 = JsVal.obj ff) ∧
      (∀ fn' cn',
        jsGetChain (.obj root) ["contracts", fn', cn', "evm", "legacyAssembly"] =
          .undef →
        jsGetChain acc' ["contracts", fn', cn', "evm", "legacyAssembly"] = .undef) ∧
      jsGetChain acc' ["contracts", fn, cn, "evm", "legacyAssembly"] = .undef := by
  rw [jsDeleteAtE] at h
  rw [except_bind_eq_ok] at h
  obtain ⟨t, ht, h⟩ := h
  rw [except_bind_eq_ok] at h
  obtain ⟨t', ht', hset⟩ := h
  simp only [jsGetPathE, except_bind_eq_ok] at ht
  obtain ⟨c1, hc1, c2, hc2, c3, hc3, c4, hc4, hpure⟩ := ht
  injection hpure with hpure'
  subst hpure'
  have hc1v : c1 = .obj cf := by
    rw [jsGetE_ok_val _ _ _ hc1, jsGet_obj, hc]
    rfl
  subst hc1v
  cases hofn : objGet cf fn with
  | none =>
      have hc2v : c2 = .undef := by
        rw [jsGetE_ok_val _ _ _ hc2, jsGet_obj, hofn]
        rfl
      subst hc2v
      cases hc3
  | some fv =>
      obtain ⟨ff, hff⟩ := hfo (fn, fv) (objGet_mem _ _ _ hofn)
      simp only at hff
      subst hff
      have hc2v : c2 = .obj ff := by
        rw [jsGetE_ok_val _ _ _ hc2, jsGet_obj, hofn]
        rfl
      subst hc2v
      cases hocn : objGet ff cn with
      | none =>
          have hc3v : c3 = .undef := by
            rw [jsGetE_ok_val _ _ _ hc3, jsGet_obj, hocn]
            rfl
          subst hc3v
          cases hc4
      | some cval =>
          have hc3v : c3 = cval := by
            rw [jsGetE_ok_val _ _ _ hc3, jsGet_obj, hocn]
            rfl
          subst hc3v
          cases c3 with
          | null => cases hc4
          | undef => cases hc4
          | arr xs =>
              have hc4v : c4 = .undef := by
                rw [jsGetE_ok_val _ _ _ hc4]
                rfl
              subst hc4v
              cases ht'
          | str sv =>
              have hc4v : c4 = .undef := by
                rw [jsGetE_ok_val _ _ _ hc4]
                rfl
              subst hc4v
              cases ht'
          | bool bv =>
              have hc4v : c4 = .undef := by
                rw [jsGetE_ok_val _ _ _ hc4]
                rfl
              subst hc4v
              cases ht'
          | num nv =>
              have hc4v : c4 = .undef := by
                rw [jsGetE_ok_val _ _ _ hc4]
                rfl
              subst hc4v
              cases ht'
          | obj cvf =>
              have hc4v : c4 = jsGet (.obj cvf) "evm" := jsGetE_ok_val _ _ _ hc4
              rw [jsSetPathE_obj4_spec root cf ff cvf "contracts" fn cn "evm" t'
                hc hofn hocn] at hset
              injection hset with hset'
              subst hset'
              have hdel : jsGet t' "legacyAssembly" = .undef := by
                rw [hc4v, jsGet_obj] at ht'
                cases ho_ev : objGet cvf "evm" with
                | none =>
                    rw [ho_ev, Option.getD_none] at ht'
                    cases ht'
                | some evv =>
                    rw [ho_ev, Option.getD_some] at ht'
                    cases evv with
                    | null => cases ht'
                    | undef => cases ht'
                    | obj efs =>
                        injection ht' with ht''
                        rw [← ht'', jsGet_obj, objGet_objDel_same]
                        rfl
                    | arr xs =>
                        injection ht' with ht''
                        rw [← ht'']
                        rfl
                    | str sv =>
                        injection ht' with ht''
                        rw [← ht'']
                        rfl
                    | bool bv =>
                        injection ht' with ht''
                        rw [← ht'']
                        rfl
                    | num nv =>
                        injection ht' with ht''
                        rw [← ht'']
                        rfl
              have hcleanNew : jsGetChain
                  (JsVal.obj (objSet root "contracts" (.obj (objSet cf fn
                    (.obj (objSet ff cn (.obj (objSet cvf "evm" t'))))))))
                  ["contracts", fn, cn, "evm", "legacyAssembly"] = .undef := by
                simp only [jsGetChain, jsGet_obj, objGet_objSet_same, Option.getD_some]
                exact hdel
              refine ⟨_, _, rfl, objGet_objSet_same _ _ _, ?_, ?_, hcleanNew⟩
              · intro p hp
                rcases mem_objSet _ _ _ p hp with h2 | h2
                · exact hfo p h2
                · exact ⟨_, by rw [h2]⟩
              · intro fn' cn' hclean
                by_cases hfneq : fn' = fn
                · subst hfneq
                  by_cases hcneq : cn' = cn
                  · subst hcneq
                    exact hcleanNew
                  · simp only [jsGetChain, jsGet_obj, hc, Option.getD_some,
                      hofn] at hclean
                    simp only [jsGetChain, jsGet_obj, objGet_objSet_same,
                      Option.getD_some, objGet_objSet_ne _ _ _ _ hcneq]
                    exact hclean
                · simp only [jsGetChain, jsGet_obj, hc, Option.getD_some] at hclean
                  simp only [jsGetChain, jsGet_obj, objGet_objSet_same,
                    Option.getD_some, objGet_objSet_ne _ _ _ _ hfneq]
                  exact hclean

/-- Under array-valued output selections, every contract iterated by the
inner `formatOutput` loop has its `evm.legacyAssembly` deleted — the
array `in` tests never see their selection strings — and previously
cleaned contracts stay clean. -/
theorem formatContractLoop_spec (cfg : JsVal) (sel : List (String × JsVal)) (fn : String)
    (hsel : jsGetPathE cfg ["settings", "outputSelection"] = .ok (.obj sel))
    (hselv : ∀ p ∈ sel, ∃ sf, p.2 = JsVal.obj sf ∧ ∀ q ∈ sf, ∃ xs, q.2 = JsVal.arr xs) :
    ∀ (cents : List (String × JsVal)) (root cf : List (String × JsVal)) (acc' : JsVal),
      formatContractLoop cfg fn (.obj root) cents = .ok acc' →
      objGet root "contracts" = some (.obj cf) →
      (∀ p ∈ cf, ∃ ff, p.2 = JsVal.obj ff) →
      ∃ root' cf', acc' = .obj root' ∧ objGet root' "contracts" = some (.obj cf') ∧
        (∀ p ∈ cf', ∃ ff, p.2 = JsVal.obj ff) ∧
        (∀ fn' cn',
          jsGetChain (.obj root) ["contracts", fn', cn', "evm", "legacyAssembly"] =
            .undef →
          jsGetChain acc' ["contracts", fn', cn', "evm", "legacyAssembly"] = .undef) ∧
        (∀ cn v, (cn, v) ∈ cents →
          jsGetChain acc' ["contracts", fn, cn, "evm", "legacyAssembly"] = .undef) := by
  intro cents
  induction cents with
  | nil =>
      intro root cf acc' h hc hfo
      rw [formatContractLoop] at h
      injection h with h'
      refine ⟨root, cf, h'.symm, hc, hfo, ?_, ?_⟩
      · intro fn' cn' hcl
        rw [← h']
        exact hcl
      · intro cn v hmem
        exact absurd hmem (List.not_mem_nil _)
  | cons p rest ih =>
      intro root cf acc' h hc hfo
      obtain ⟨cn0, v0⟩ := p
      rw [formatContractLoop] at h
      have e1 : jsInE fn (.obj sel) = .ok (objGet sel fn).isSome := rfl
      simp only [hsel, except_ok_bind, e1] at h
      cases hofc : objGet sel (if (objGet sel fn).isSome = true then fn else "*") with
      | none =>
          rw [jsGetE_obj, jsGet_obj, hofc] at h
          simp only [Option.getD_none, except_ok_bind] at h
          rw [show jsInE cn0 JsVal.undef =
            .error "TypeError: cannot use in operator on a non-object" from rfl,
            except_error_bind] at h
          cases h
      | some sv =>
          obtain ⟨sf, hsf, hsfv⟩ := hselv _ (objGet_mem _ _ _ hofc)
          simp only at hsf
          subst hsf
          rw [jsGetE_obj, jsGet_obj, hofc] at h
          have e2 : jsInE cn0 (.obj sf) = .ok (objGet sf cn0).isSome := rfl
          simp only [Option.getD_some, except_ok_bind, e2] at h
          cases hocc : objGet sf (if (objGet sf cn0).isSome = true then cn0 else "*") with
          | none =>
              rw [jsGetE_obj, jsGet_obj, hocc] at h
              simp only [Option.getD_none, except_ok_bind] at h
              rw [show jsInE "evm.legacyAssembly" JsVal.undef =
                .error "TypeError: cannot use in operator on a non-object" from rfl,
                except_error_bind] at h
              cases h
          | some ov =>
              obtain ⟨xs, hxs⟩ := hsfv _ (objGet_mem _ _ _ hocc)
              simp only at hxs
              subst hxs
              rw [jsGetE_obj, jsGet_obj, hocc] at h
              have e3 : jsInE "evm.legacyAssembly" (JsVal.arr xs) = .ok false := rfl
              have e4 : jsInE "*" (JsVal.arr xs) = .ok false := rfl
              simp only [Option.getD_some, except_ok_bind, e3, e4, Bool.false_eq_true,
                if_false, ite_false] at h
              rw [except_bind_eq_ok] at h
              obtain ⟨acc1, hdel, h⟩ := h
              obtain ⟨root1, cf1, hacc1, hc1, hfo1, hpres1, hclean1⟩ :=
                c10_delete_spec root cf fn cn0 acc1 hc hfo hdel
              subst hacc1
              obtain ⟨root', cf', hacc', hc', hfo', hpres, hcleanRest⟩ :=
                ih root1 cf1 acc' h hc1 hfo1
              refine ⟨root', cf', hacc', hc', hfo', ?_, ?_⟩
              · intro fn' cn' hcl
                exact hpres fn' cn' (hpres1 fn' cn' hcl)
              · intro cn v hmem
                rcases List.mem_cons.mp hmem with hh | ht
                · injection hh with h1 h2
                  subst h1
                  exact hpres fn cn (hclean1)
                · exact hcleanRest cn v ht

/-- The outer `formatOutput` loop never resurrects a `legacyAssembly`
field: once absent for a (file, contract) pair it stays absent. -/
theorem formatFileLoop_preserves (cfg : JsVal) (sel : List (String × JsVal))
    (hsel : jsGetPathE cfg ["settings", "outputSelection"] = .ok (.obj sel))
    (hselv : ∀ p ∈ sel, ∃ sf, p.2 = JsVal.obj sf ∧ ∀ q ∈ sf, ∃ xs, q.2 = JsVal.arr xs) :
    ∀ (fents : List (String × JsVal)) (root cf : List (String × JsVal)) (acc' : JsVal),
      formatFileLoop cfg (.obj root) fents = .ok acc' →
      objGet root "contracts" = some (.obj cf) →
      (∀ p ∈ cf, ∃ ff, p.2 = JsVal.obj ff) →
      ∀ fn cn,
        jsGetChain (.obj root) ["contracts", fn, cn, "evm", "legacyAssembly"] = .undef →
        jsGetChain acc' ["contracts", fn, cn, "evm", "legacyAssembly"] = .undef := by
  intro fents
  induction fents with
  | nil =>
      intro root cf acc' h hc hfo fn cn hcl
      rw [formatFileLoop] at h
      injection h with h'
      rw [← h']
      exact hcl
  | cons p rest ih =>
      intro root cf acc' h hc hfo fn cn hcl
      obtain ⟨fn0, fo0⟩ := p
      rw [formatFileLoop] at h
      rw [except_bind_eq_ok] at h
      obtain ⟨cents0, hcents0, h⟩ := h
      rw [except_bind_eq_ok] at h
      obtain ⟨acc1, hloop, h⟩ := h
      obtain ⟨root1, cf1, hacc1, hc1, hfo1, hpres1, hclean1⟩ :=
        formatContractLoop_spec cfg sel fn0 hsel hselv cents0 root cf acc1 hloop hc hfo
      subst hacc1
      exact ih root1 cf1 acc' h hc1 hfo1 fn cn (hpres1 fn cn hcl)

/-- Every contract listed in the batch gets its `evm.legacyAssembly`
deleted by the outer `formatOutput` loop. -/
theorem formatFileLoop_spec (cfg : JsVal) (sel : List (String × JsVal))
    (hsel : jsGetPathE cfg ["settings", "outputSelection"] = .ok (.obj sel))
    (hselv : ∀ p ∈ sel, ∃ sf, p.2 = JsVal.obj sf ∧ ∀ q ∈ sf, ∃ xs, q.2 = JsVal.arr xs) :
    ∀ (fents : List (String × JsVal)) (root cf : List (String × JsVal)) (acc' : JsVal),
      formatFileLoop cfg (.obj root) fents = .ok acc' →
      objGet root "contracts" = some (.obj cf) →
      (∀ p ∈ cf, ∃ ff, p.2 = JsVal.obj ff) →
      (∀ fn fo, (fn, fo) ∈ fents → ∀ cents, jsEntriesE fo = .ok cents →
        ∀ cn v, (cn, v) ∈ cents →
        jsGetChain acc' ["contracts", fn, cn, "evm", "legacyAssembly"] = .undef) := by
  intro fents
  induction fents with
  | nil =>
      intro root cf acc' h hc hfo fn fo hmem
      exact absurd hmem (List.not_mem_nil _)
  | cons p rest ih =>
      intro root cf acc' h hc hfo fn fo hmem cents hents cn v hcnmem
      obtain ⟨fn0, fo0⟩ := p
      rw [formatFileLoop] at h
      rw [except_bind_eq_ok] at h
      obtain ⟨cents0, hcents0, h⟩ := h
      rw [except_bind_eq_ok] at h
      obtain ⟨acc1, hloop, h⟩ := h
      obtain ⟨root1, cf1, hacc1, hc1, hfo1, hpres1, hclean1⟩ :=
        formatContractLoop_spec cfg sel fn0 hsel hselv cents0 root cf acc1 hloop hc hfo
      subst hacc1
      rcases List.mem_cons.mp hmem with hh | ht
      · injection hh with h1 h2
        subst h1
        subst h2
        rw [hents] at hcents0
        injection hcents0 with hc0
        subst hc0
        -- cleanliness established by the head loop, preserved by the rest
        have hcl := hclean1 cn v hcnmem
        clear hclean1
        -- preservation over the remaining files
        revert hcl
        have := ih root1 cf1 acc' h hc1 hfo1
        -- we need a preservation statement over formatFileLoop; derive it inline
        clear this
        intro hcl
        exact formatFileLoop_preserves cfg sel hsel hselv rest root1 cf1 acc' h hc1
          hfo1 fn cn hcl
      · exact ih root1 cf1 acc' h hc1 hfo1 fn fo ht cents hents cn v hcnmem

/-- C10: For every run of the output-formatting stage — a transpiled
batch whose per-file contract maps are objects, under a
`settings.outputSelection` whose per-file entries map contract names to
arrays of selection strings (so the selection covers each contract via
its filename or "*", or the stage throws) — the formatted result has no
`evm.legacyAssembly` field for any contract of the batch, even when the
selection array explicitly lists "evm.legacyAssembly" or "*": the
source's membership tests apply the JavaScript `in` operator to arrays,
which checks array indices rather than elements, so they are always
false and the `delete` always fires. -/
theorem c10_legacy_assembly_always_deleted
    (tOut cfg res' : JsVal) (cf sel : List (String × JsVal))
    (hco : jsGet tOut "contracts" = .obj cf)
    (hfo : ∀ p ∈ cf, ∃ ff, p.2 = JsVal.obj ff)
    (hsel : jsGetPathE cfg ["settings", "outputSelection"] = .ok (.obj sel))
    (hselv : ∀ p ∈ sel, ∃ sf, p.2 = JsVal.obj sf ∧ ∀ q ∈ sf, ∃ xs, q.2 = JsVal.arr xs)
    (hrun : formatOutputVal tOut cfg = .ok res') :
    ∀ fn fo, (fn, fo) ∈ cf → ∀ cents, jsEntriesE fo = .ok cents →
      ∀ cn v, (cn, v) ∈ cents →
      jsGetChain res' ["contracts", fn, cn, "evm", "legacyAssembly"] = .undef := by
  obtain ⟨root, hroot, hg⟩ :=
    jsGet_nonindex_obj tOut "contracts" cf (by decide) (by decide) hco
  subst hroot
  rw [formatOutputVal] at hrun
  have e0 : jsEntriesE (JsVal.obj cf) = .ok cf := rfl
  simp only [jsGetE_obj, hco, except_ok_bind, e0] at hrun
  exact formatFileLoop_spec cfg sel hsel hselv cf root cf res' hrun hg hfo

/-- Witness for C10: in the concrete batch `c10tOut`, contract `C` of
`f.sol` carries a `legacyAssembly` field and the input selection lists
"evm.legacyAssembly" for it, yet the formatted result `c10res` lacks the
field. -/
theorem c10_legacy_assembly_always_deleted_witness :
    jsGetChain c10tOut ["contracts", "f.sol", "C", "evm", "legacyAssembly"] =
      JsVal.str "ASM" ∧
    formatOutputVal c10tOut c10cfg = .ok c10res ∧
    jsGetChain c10res ["contracts", "f.sol", "C", "evm", "legacyAssembly"] =
      JsVal.undef := by
  refine ⟨rfl, rfl, ?_⟩
  refine c10_legacy_assembly_always_deleted c10tOut c10cfg c10res
    [("f.sol", JsVal.obj [("C", c10Contract)])]
    [("f.sol", JsVal.obj [("C", JsVal.arr [JsVal.str "evm.legacyAssembly"])])]
    rfl ?_ rfl ?_ rfl "f.sol" (JsVal.obj [("C", c10Contract)]) ?_
    [("C", c10Contract)] rfl "C" c10Contract ?_
  · intro p hp
    rw [List.mem_singleton] at hp
    subst hp
    exact ⟨_, rfl⟩
  · intro p hp
    rw [List.mem_singleton] at hp
    subst hp
    refine ⟨[("C", JsVal.arr [JsVal.str "evm.legacyAssembly"])], rfl, ?_⟩
    intro q hq
    rw [List.mem_singleton] at hq
    subst hq
    exact ⟨[JsVal.str "evm.legacyAssembly"], rfl⟩
  · exact List.mem_singleton.mpr rfl
  · exact List.mem_singleton.mpr rfl
